import Mathlib

/-!
Verification of the diff-digest release-note parser and stream consumer.

The parser (`parseNotes` in `src/lib/noteParser.ts`) first replaces every
newline of its input with the placeholder `" __NEWLINE__ "`, then, for each
section tag, runs a JavaScript regex of the shape `/TAG:\s*(.*?)(?=NEXT:|$)/`
over the processed text (for the last tag, `/CHANGES:\s*(.*?)$/`), maps the
placeholder back to a newline in the captured group, and trims the result.

We embed the exact ECMAScript semantics of those regexes on `List Char`:
leftmost match (the engine retries at successive start positions), greedy
`\s*` with backtracking, lazy `(.*?)`, `.` matching every character except
the line terminators LF / CR / U+2028 / U+2029, and `$` (no `m` flag)
matching only at the very end of the input.  The stream-consumption loop of
`DiffCard.tsx` (`handleGenerateNotes`) is embedded as a step function over
an explicit consumer state driven by single-threaded events.
-/

namespace DiffDigest

/-- The ECMAScript `\s` class (WhiteSpace ∪ LineTerminator), which is also
exactly the set of characters removed by `String.prototype.trim`. -/
def isJsWs (c : Char) : Bool :=
  let n := c.toNat
  n == 0x9 || n == 0xA || n == 0xB || n == 0xC || n == 0xD || n == 0x20 ||
  n == 0xA0 || n == 0x1680 ||
  n == 0x2000 || n == 0x2001 || n == 0x2002 || n == 0x2003 || n == 0x2004 ||
  n == 0x2005 || n == 0x2006 || n == 0x2007 || n == 0x2008 || n == 0x2009 ||
  n == 0x200A || n == 0x2028 || n == 0x2029 || n == 0x202F || n == 0x205F ||
  n == 0x3000 || n == 0xFEFF

/-- The ECMAScript `.` (without the `s` flag): every character except the
line terminators LF, CR, U+2028 and U+2029. -/
def isDot (c : Char) : Bool :=
  !(c.toNat == 0xA || c.toNat == 0xD || c.toNat == 0x2028 || c.toNat == 0x2029)

/-- The replacement text of `text.replace(/\n/g, ' __NEWLINE__ ')`. -/
def nlToken : List Char := " __NEWLINE__ ".toList

/-- The substitution `text.replace(/\n/g, ' __NEWLINE__ ')`. -/
def encodeNL : List Char → List Char
  | [] => []
  | c :: rest => (if c = '\n' then nlToken else [c]) ++ encodeNL rest

/-- The pattern of `captured.replace(/__NEWLINE__/g, '\n')`. -/
def nlMarker : List Char := "__NEWLINE__".toList

/-- Fuel-indexed worker for `decodeNL`; the fuel only serves to make the
recursion structural, `decodeNL` always supplies enough. -/
def decodeNLF : Nat → List Char → List Char
  | _, [] => []
  | 0, s => s
  | fuel + 1, c :: rest =>
    if nlMarker.isPrefixOf (c :: rest) then '\n' :: decodeNLF fuel (rest.drop 10)
    else c :: decodeNLF fuel rest

/-- The substitution `captured.replace(/__NEWLINE__/g, '\n')`: global, leftmost,
non-overlapping replacement of the literal placeholder by a newline. -/
def decodeNL (s : List Char) : List Char := decodeNLF s.length s

/-- JavaScript `String.prototype.trim`. -/
def trimJs (s : List Char) : List Char :=
  ((s.dropWhile isJsWs).reverse.dropWhile isJsWs).reverse

/-- The lazy capture `(.*?)(?=next|$)` started at `s`: the shortest run of
`.`-characters after which either `next` matches or the input ends. `none`
when no continuation succeeds (a non-`.` character is hit first). -/
def lazyCapture (next : List Char) (s : List Char) : Option (List Char) :=
  if next.isPrefixOf s then some []
  else
    match s with
    | [] => some []
    | c :: rest =>
      if isDot c then (lazyCapture next rest).map (fun t => c :: t) else none

/-- The lazy capture `(.*?)$` of the `CHANGES:` regex: succeeds only when
every remaining character is a `.`-character, capturing all of them. -/
def lazyCaptureEnd : List Char → Option (List Char)
  | [] => some []
  | c :: rest =>
    if isDot c then (lazyCaptureEnd rest).map (fun t => c :: t) else none

/-- Greedy `\s*` (with backtracking) followed by the capture `cap`: the
engine first consumes as much whitespace as possible and gives characters
back one at a time when the rest of the pattern fails. -/
def wsThenCapture (cap : List Char → Option (List Char)) : List Char → Option (List Char)
  | [] => cap []
  | c :: rest =>
    if isJsWs c then
      match wsThenCapture cap rest with
      | some r => some r
      | none => cap (c :: rest)
    else cap (c :: rest)

/-- Leftmost match of `/marker\s*(…)/` over `s`: the engine tries each start
position from the left; at a position where the literal `marker` matches it
runs `\s*` and the capture, and on failure moves one position right. -/
def findSection (marker : List Char) (cap : List Char → Option (List Char)) :
    List Char → Option (List Char)
  | [] => if marker.isPrefixOf ([] : List Char) then wsThenCapture cap [] else none
  | c :: rest =>
    if marker.isPrefixOf (c :: rest) then
      match wsThenCapture cap ((c :: rest).drop marker.length) with
      | some r => some r
      | none => findSection marker cap rest
    else findSection marker cap rest

/-- One section of `parseNotes`: regex match, the `if (m && m[1])` guard
(an empty capture leaves the section empty), placeholder decoding, trim. -/
def extractSection (marker next : List Char) (s : List Char) : List Char :=
  match findSection marker (lazyCapture next) s with
  | some cap => if cap.isEmpty then [] else trimJs (decodeNL cap)
  | none => []

/-- The `CHANGES:` section of `parseNotes` (regex `/CHANGES:\s*(.*?)$/`). -/
def extractLast (marker : List Char) (s : List Char) : List Char :=
  match findSection marker lazyCaptureEnd s with
  | some cap => if cap.isEmpty then [] else trimJs (decodeNL cap)
  | none => []

/-- The section map returned by `parseNotes` in `src/lib/noteParser.ts`. -/
structure ParsedNotes where
  devNote : List Char
  marketingNote : List Char
  feedback : List Char
  security : List Char
  readability : List Char
  tests : List Char
  contributors : List Char
  changes : List Char
deriving Repr, DecidableEq

/-- The function `parseNotes` from `src/lib/noteParser.ts`: newline encoding, one regex
per tag with the canonical successor in the lookahead, decode and trim. -/
def parseNotes (text : List Char) : ParsedNotes :=
  let processedText := encodeNL text
  { devNote := extractSection "DEVELOPER:".toList "MARKETING:".toList processedText
    marketingNote := extractSection "MARKETING:".toList "FEEDBACK:".toList processedText
    feedback := extractSection "FEEDBACK:".toList "SECURITY:".toList processedText
    security := extractSection "SECURITY:".toList "READABILITY:".toList processedText
    readability := extractSection "READABILITY:".toList "TESTS:".toList processedText
    tests := extractSection "TESTS:".toList "CONTRIBUTORS:".toList processedText
    contributors := extractSection "CONTRIBUTORS:".toList "CHANGES:".toList processedText
    changes := extractLast "CHANGES:".toList processedText }

/-- JavaScript `text.includes(pat)`. -/
def includesSub (pat : List Char) : List Char → Bool
  | [] => pat.isEmpty
  | c :: rest => pat.isPrefixOf (c :: rest) || includesSub pat rest

/-- The all-empty section map. -/
def emptyNotes : ParsedNotes := ⟨[], [], [], [], [], [], [], []⟩

/-- The function `parseNotes` with its `try`/`catch` structure made explicit.  The `try`
body is total, so in the embedding it cannot actually throw; the boolean
`internalError` injects the hypothetical exception the `catch` block guards
against.  The `catch` block returns the whole buffer as the developer note
when the buffer contains `'DEVELOPER:'` and rethrows otherwise. -/
def parseNotesE (internalError : Bool) (text : List Char) : Except Unit ParsedNotes :=
  if internalError then
    if includesSub "DEVELOPER:".toList text then
      Except.ok { emptyNotes with devNote := text }
    else
      Except.error ()
  else
    Except.ok (parseNotes text)

/-! ### The `DiffCard.tsx` stream consumer

`handleGenerateNotes` resets the note state, opens the stream, arms a
30-second timer whose callback aborts an `AbortController`, records a
timeout error and clears `isGenerating`, and then loops: check the abort
flag, await `reader.read()`, append the chunk, re-parse, publish.  The
abort controller is never handed to `reader.read()`, so an abort is only
observed at the top of the loop, after a pending read has resolved.  We
model the loop as a step function over explicit state, driven by the three
events that can resolve while it is suspended: a chunk arrives, the timer
fires, or the stream reports completion. -/

/-- One entry of the `contributorData` array in `DiffCard.tsx`. -/
structure Contributor where
  login : List Char
  displayName : List Char
  role : List Char
  avatarUrl : List Char
deriving Repr, DecidableEq

/-- The persisted `NoteState` of `DiffCard.tsx`. -/
structure NoteState where
  devNote : List Char
  marketingNote : List Char
  isVisible : Bool
  contributors : List Char
  changes : List Char
  contributorData : List Contributor
deriving Repr, DecidableEq

/-- The function `parseAndUpdateNotes` from `DiffCard.tsx`: the in-component parser (four
sections, with `MARKETING:` bounded by `CONTRIBUTORS:`) applied to the full
received text, merged into the previous note state.  Its `try` body is
total, so the `catch` branch is unreachable in the embedding. -/
def parseAndUpdateNotes (text : List Char) (prev : NoteState) : NoteState :=
  let processedText := encodeNL text
  { prev with
    devNote := extractSection "DEVELOPER:".toList "MARKETING:".toList processedText
    marketingNote := extractSection "MARKETING:".toList "CONTRIBUTORS:".toList processedText
    contributors := extractSection "CONTRIBUTORS:".toList "CHANGES:".toList processedText
    changes := extractLast "CHANGES:".toList processedText
    isVisible := true }

/-- The error message installed by the timeout callback. -/
def timeoutMessage : List Char :=
  "Request timed out after 30 seconds. Please try again.".toList

/-- The state of one generation session of `DiffCard.tsx`. -/
structure ConsumerState where
  receivedText : List Char
  notes : NoteState
  error : Option (List Char)
  isGenerating : Bool
  /-- Mirror of `abortController.signal.aborted`. -/
  aborted : Bool
  /-- the 30-second timer has neither fired nor been cleared -/
  timerArmed : Bool
  /-- the read loop is live: a `reader.read()` is pending -/
  reading : Bool
deriving Repr, DecidableEq

/-- The events that can resolve while the consumer is suspended. -/
inductive StreamEvent where
  | chunk (text : List Char)
  | timerFire
  | streamDone
deriving Repr, DecidableEq

/-- The consumer state right after `handleGenerateNotes` has reset the note
state, set `isGenerating`, armed the timer and issued the first read. -/
def startConsumer (prev : NoteState) : ConsumerState :=
  { receivedText := []
    notes := { prev with
      devNote := [], marketingNote := [], isVisible := true
      contributors := [], changes := [] }
    error := none
    isGenerating := true
    aborted := false
    timerArmed := true
    reading := true }

/-- One event of the single-threaded event loop hitting the consumer.

* `timerFire`: the timeout callback aborts the controller, records the
  timeout error and clears `isGenerating` (only if the timer is still
  armed — exiting the loop clears it).
* `chunk`: a pending `reader.read()` resolves; the chunk is decoded,
  appended and parsed, and the loop returns to its top, where it exits if
  the abort flag is set (clearing the timer and releasing the reader).
* `streamDone`: the read resolves with `done`, the loop exits, and the
  `finally` blocks clear the timer and `isGenerating`. -/
def consumeStep (s : ConsumerState) (e : StreamEvent) : ConsumerState :=
  match e with
  | .timerFire =>
    if s.timerArmed then
      { s with aborted := true, error := some timeoutMessage
               isGenerating := false, timerArmed := false }
    else s
  | .chunk text =>
    if s.reading then
      let received := s.receivedText ++ text
      let s1 := { s with receivedText := received
                         notes := parseAndUpdateNotes received s.notes }
      if s1.aborted then { s1 with reading := false, timerArmed := false } else s1
    else s
  | .streamDone =>
    if s.reading then
      { s with reading := false, timerArmed := false, isGenerating := false }
    else s

/-- Run the consumer over a sequence of events. -/
def runConsumer (s : ConsumerState) (es : List StreamEvent) : ConsumerState :=
  es.foldl consumeStep s

/-- The session state established by the timeout callback: aborted, timer
spent, timeout error recorded, `isGenerating` false. -/
def postTimeout (s : ConsumerState) : Prop :=
  s.aborted = true ∧ s.timerArmed = false ∧
  s.error = some timeoutMessage ∧ s.isGenerating = false

/-- The per-card state `handleGenerateNotes` reads and writes before any
stream activity. -/
structure CardState where
  notes : NoteState
  error : Option (List Char)
  isGenerating : Bool
deriving Repr, DecidableEq

/-- The entry of `handleGenerateNotes` in `DiffCard.tsx` up to issuing the
stream request: the `if (isGenerating) return` guard, then the note-state
reset, `setError(null)` and `setIsGenerating(true)`.  The boolean reports
whether a new stream request is issued. -/
def handleGenerateNotes (s : CardState) : CardState × Bool :=
  if s.isGenerating then (s, false)
  else
    ({ notes := { s.notes with
         devNote := [], marketingNote := [], isVisible := true
         contributors := [], changes := [] }
       error := none
       isGenerating := true }, true)

/-! ### Specification-side helpers

`dropToSub` and `takeUntilSub` phrase the regex results in first-occurrence
terms: the suffix after the first occurrence of a pattern, and the segment
up to the first occurrence of a pattern (to the end when absent).  On
buffers free of the characters `.` does not match, the source regexes are
proved equal to this formulation. -/

/-- The suffix just after the first occurrence of `pat`; `none` when `pat`
does not occur. -/
def dropToSub (pat : List Char) : List Char → Option (List Char)
  | [] => if pat.isPrefixOf ([] : List Char) then some [] else none
  | c :: rest =>
    if pat.isPrefixOf (c :: rest) then some ((c :: rest).drop pat.length)
    else dropToSub pat rest

/-- The segment before the first occurrence of `pat` (everything when `pat`
does not occur). -/
def takeUntilSub (pat : List Char) : List Char → List Char
  | [] => []
  | c :: rest =>
    if pat.isPrefixOf (c :: rest) then [] else c :: takeUntilSub pat rest

/-- Every character is matched by `.`. -/
def allDot (s : List Char) : Prop := ∀ c ∈ s, isDot c = true

/-- A character the parser handles exactly: a newline (encoded away) or a
`.`-character.  Excluded are CR, U+2028 and U+2029. -/
def cleanChar (c : Char) : Prop := c = '\n' ∨ isDot c = true

/-- A buffer of clean characters. -/
def cleanText (s : List Char) : Prop := ∀ c ∈ s, cleanChar c

/-- No occurrence of `pat` in `x ++ z` begins inside `x`. -/
def noStart (pat x z : List Char) : Prop :=
  ∀ y ∈ x.tails, y ≠ [] → pat.isPrefixOf (y ++ z) = false

/-- First-occurrence description of one section: the text after the first
`marker`, with leading whitespace skipped, up to the first occurrence of
`next` (to the end of the buffer when `next` does not occur after it);
empty when `marker` is absent or nothing remains. -/
def sectionSpec (marker next s : List Char) : List Char :=
  match dropToSub marker s with
  | none => []
  | some t =>
    let cap := takeUntilSub next (t.dropWhile isJsWs)
    if cap.isEmpty then [] else trimJs (decodeNL cap)

/-- First-occurrence description of the last section: everything after the
first `marker`, with leading whitespace skipped. -/
def sectionSpecEnd (marker s : List Char) : List Char :=
  match dropToSub marker s with
  | none => []
  | some t =>
    let cap := t.dropWhile isJsWs
    if cap.isEmpty then [] else trimJs (decodeNL cap)

/-- The whole parser in first-occurrence terms: each tag's content runs
from just after the first occurrence of its marker up to the first
occurrence of the marker of its immediate canonical successor only, and to
the end of the buffer when that one marker is absent. -/
def parseNotesSpec (text : List Char) : ParsedNotes :=
  let s := encodeNL text
  { devNote := sectionSpec "DEVELOPER:".toList "MARKETING:".toList s
    marketingNote := sectionSpec "MARKETING:".toList "FEEDBACK:".toList s
    feedback := sectionSpec "FEEDBACK:".toList "SECURITY:".toList s
    security := sectionSpec "SECURITY:".toList "READABILITY:".toList s
    readability := sectionSpec "READABILITY:".toList "TESTS:".toList s
    tests := sectionSpec "TESTS:".toList "CONTRIBUTORS:".toList s
    contributors := sectionSpec "CONTRIBUTORS:".toList "CHANGES:".toList s
    changes := sectionSpecEnd "CHANGES:".toList s }

/-- The eight section markers in canonical order. -/
def sectionMarkers : List (List Char) :=
  ["DEVELOPER:".toList, "MARKETING:".toList, "FEEDBACK:".toList,
   "SECURITY:".toList, "READABILITY:".toList, "TESTS:".toList,
   "CONTRIBUTORS:".toList, "CHANGES:".toList]

/-- Section `marker` is complete in buffer `p`: its marker occurs, and the
closing marker `next` occurs in what follows it (past the whitespace the
regex skips). -/
def sectionClosed (marker next p : List Char) : Prop :=
  ∃ t, dropToSub marker (encodeNL p) = some t ∧
    includesSub next (t.dropWhile isJsWs) = true

instance (c : Char) : Decidable (cleanChar c) := by
  unfold cleanChar; infer_instance

instance (s : List Char) : Decidable (cleanText s) := by
  unfold cleanText; exact List.decidableBAll _ s

instance (s : List Char) : Decidable (allDot s) := by
  unfold allDot; exact List.decidableBAll _ s

instance (pat x z : List Char) : Decidable (noStart pat x z) := by
  unfold noStart; exact List.decidableBAll _ x.tails

instance (s : ConsumerState) : Decidable (postTimeout s) := by
  unfold postTimeout; infer_instance

end DiffDigest

namespace DiffDigest

/-! ## Claim theorems settled by direct computation -/

/-- C9: `parseNotes` on the buffer `"DEVELOPER: Fixed null check\nMARKETING:
More reliable sign-in"` yields devNote `"Fixed null check"` and marketingNote
`"More reliable sign-in"` with every other section empty, and on the
mid-stream buffer `"DEVELOPER: partial tex"` yields devNote `"partial tex"`
with every other section empty. -/
theorem C9_theorem :
    parseNotes "DEVELOPER: Fixed null check\nMARKETING: More reliable sign-in".toList =
      { emptyNotes with
          devNote := "Fixed null check".toList
          marketingNote := "More reliable sign-in".toList } ∧
    parseNotes "DEVELOPER: partial tex".toList =
      { emptyNotes with devNote := "partial tex".toList } := by
  decide

/-- C10: on a buffer whose DEVELOPER content contains the literal substring
`"__NEWLINE__"`, `parseNotes` returns that content with the placeholder
rewritten to a newline character: the placeholder used internally for real
newlines collides with user text at the public interface. -/
theorem C10_theorem :
    includesSub "__NEWLINE__".toList "DEVELOPER: a__NEWLINE__b".toList = true ∧
    (parseNotes "DEVELOPER: a__NEWLINE__b".toList).devNote = "a\nb".toList ∧
    includesSub "__NEWLINE__".toList
      (parseNotes "DEVELOPER: a__NEWLINE__b".toList).devNote = false := by
  decide

/-- C1 counterexample: the buffer `"DEVELOPER: x FEEDBACK: y"` contains the
later-canonical-order marker `FEEDBACK:` but no `MARKETING:`; the claim says
the DEVELOPER content ends at `FEEDBACK:` (i.e. equals `"x"`), but the code
only looks ahead for the immediate successor `MARKETING:`, so the DEVELOPER
content runs to the end of the buffer, `"x FEEDBACK: y"`. -/
theorem C1_counterexample :
    includesSub "DEVELOPER:".toList "DEVELOPER: x FEEDBACK: y".toList = true ∧
    includesSub "FEEDBACK:".toList "DEVELOPER: x FEEDBACK: y".toList = true ∧
    includesSub "MARKETING:".toList "DEVELOPER: x FEEDBACK: y".toList = false ∧
    (parseNotes "DEVELOPER: x FEEDBACK: y".toList).devNote = "x FEEDBACK: y".toList ∧
    (parseNotes "DEVELOPER: x FEEDBACK: y".toList).devNote ≠ "x".toList := by
  decide

/-- C3 counterexample: a buffer carrying every configured tag in canonical
order with non-empty content, whose DEVELOPER content embeds a newline.  The
text between `DEVELOPER:` and `MARKETING:` is `" a\nb "`, which trimmed is
`"a\nb"`; but `parseNotes` returns `"a \n b"` — the round-trip through the
`" __NEWLINE__ "` placeholder leaves a space on each side of every interior
newline, so the interior characters are not unchanged. -/
theorem C3_counterexample :
    (parseNotes ("DEVELOPER: a\nb MARKETING: c FEEDBACK: d SECURITY: e " ++
        "READABILITY: f TESTS: g CONTRIBUTORS: h CHANGES: i").toList).devNote =
      "a \n b".toList ∧
    trimJs " a\nb ".toList = "a\nb".toList ∧
    ("a \n b".toList : List Char) ≠ "a\nb".toList := by
  decide

/-- C7 counterexample: in the prefix `"DEVELOPER: a\rMARKETING: b"` the
DEVELOPER section's closing marker `MARKETING:` has appeared (after the
DEVELOPER marker), yet appending `" DEVELOPER: z"` changes the parsed
DEVELOPER content from `""` to `"z"`: the carriage return is matched by
neither `.` nor the end-of-input lookahead, the match attempt at the first
`DEVELOPER:` fails, and the engine restarts at the occurrence arriving in
the appended text. -/
theorem C7_counterexample :
    dropToSub "DEVELOPER:".toList (encodeNL "DEVELOPER: a\rMARKETING: b".toList) =
      some " a\rMARKETING: b".toList ∧
    includesSub "MARKETING:".toList
      (" a\rMARKETING: b".toList.dropWhile isJsWs) = true ∧
    (parseNotes "DEVELOPER: a\rMARKETING: b".toList).devNote = [] ∧
    (parseNotes ("DEVELOPER: a\rMARKETING: b".toList ++ " DEVELOPER: z".toList)).devNote =
      "z".toList ∧
    (parseNotes ("DEVELOPER: a\rMARKETING: b".toList ++ " DEVELOPER: z".toList)).devNote ≠
      (parseNotes "DEVELOPER: a\rMARKETING: b".toList).devNote := by
  decide

/-- C2 counterexample: against a stream source that never completes and
never errors, the timer firing does set the timeout error and clear
`isGenerating`; but the abort controller is not wired into the pending
`reader.read()`, so a chunk resolving that read after the timeout is still
appended, parsed and published — the Parsed Sections update once more after
the timeout, instead of the chunk being discarded. -/
theorem C2_counterexample :
    (runConsumer (startConsumer ⟨[], [], true, [], [], []⟩)
        [.chunk "DEVELOPER: a".toList, .timerFire]).error = some timeoutMessage ∧
    (runConsumer (startConsumer ⟨[], [], true, [], [], []⟩)
        [.chunk "DEVELOPER: a".toList, .timerFire]).isGenerating = false ∧
    (runConsumer (startConsumer ⟨[], [], true, [], [], []⟩)
        [.chunk "DEVELOPER: a".toList, .timerFire, .chunk "b".toList]).notes.devNote =
      "ab".toList ∧
    (runConsumer (startConsumer ⟨[], [], true, [], [], []⟩)
        [.chunk "DEVELOPER: a".toList, .timerFire, .chunk "b".toList]).notes ≠
      (runConsumer (startConsumer ⟨[], [], true, [], [], []⟩)
          [.chunk "DEVELOPER: a".toList, .timerFire]).notes := by
  decide

end DiffDigest

namespace DiffDigest

/-! ## Basic facts about prefixes and the placeholder codec -/

/-- A literal matches at the front of its own append. -/
theorem isPrefixOf_self_append (m z : List Char) : m.isPrefixOf (m ++ z) = true := by
  induction m with
  | nil => simp
  | cons d m ih => simp [List.isPrefixOf, ih]

/-- A matching literal is no longer than the text it matches in. -/
theorem length_le_of_isPrefixOf :
    ∀ m x : List Char, m.isPrefixOf x = true → m.length ≤ x.length := by
  intro m
  induction m with
  | nil => intro x _; simp
  | cons d m ih =>
    intro x h
    cases x with
    | nil => simp [List.isPrefixOf] at h
    | cons a x =>
      simp only [List.isPrefixOf, Bool.and_eq_true] at h
      simp only [List.length_cons]
      exact Nat.succ_le_succ (ih x h.2)

/-- Appending text beyond the window a literal is compared against does not
change whether it matches. -/
theorem isPrefixOf_append_of_length_le :
    ∀ (m x : List Char), m.length ≤ x.length →
      ∀ r, m.isPrefixOf (x ++ r) = m.isPrefixOf x := by
  intro m
  induction m with
  | nil => intro x _ r; simp
  | cons d m ih =>
    intro x h r
    cases x with
    | nil => simp at h
    | cons a x =>
      simp only [List.length_cons, Nat.succ_le_succ_iff] at h
      simp [List.isPrefixOf, ih x h r]

/-- Fuel irrelevance for the placeholder decoder. -/
theorem decodeNLF_congr :
    ∀ (f1 : Nat) (s : List Char) (f2 : Nat), s.length ≤ f1 → s.length ≤ f2 →
      decodeNLF f1 s = decodeNLF f2 s := by
  intro f1
  induction f1 with
  | zero =>
    intro s f2 h1 _
    have : s = [] := List.eq_nil_of_length_eq_zero (Nat.le_zero.mp h1)
    subst this
    cases f2 <;> rfl
  | succ f1 ih =>
    intro s f2 h1 h2
    cases s with
    | nil => cases f2 <;> rfl
    | cons c rest =>
      cases f2 with
      | zero => simp at h2
      | succ f2 =>
        simp only [List.length_cons, Nat.succ_le_succ_iff] at h1 h2
        simp only [decodeNLF]
        by_cases hp : nlMarker.isPrefixOf (c :: rest)
        · have hd : (rest.drop 10).length ≤ rest.length := by
            simp [List.length_drop]
          simp [hp, ih (rest.drop 10) f2 (le_trans hd h1) (le_trans hd h2)]
        · simp [hp, ih rest f2 h1 h2]

theorem decodeNL_nil : decodeNL [] = [] := rfl

/-- The defining equation of `decodeNL` on a nonempty list. -/
theorem decodeNL_cons (c : Char) (rest : List Char) :
    decodeNL (c :: rest) =
      if nlMarker.isPrefixOf (c :: rest) then '\n' :: decodeNL (rest.drop 10)
      else c :: decodeNL rest := by
  show decodeNLF (c :: rest).length (c :: rest) = _
  simp only [List.length_cons, decodeNLF]
  by_cases hp : nlMarker.isPrefixOf (c :: rest)
  · have hd : (rest.drop 10).length ≤ rest.length := by
      simp [List.length_drop]
    simp [hp, decodeNL, decodeNLF_congr rest.length (rest.drop 10) (rest.drop 10).length hd le_rfl]
  · simp [hp, decodeNL]

/-- Whitespace is never an underscore, so the placeholder cannot begin at a
whitespace character. -/
theorem nlMarker_not_at_ws (c : Char) (l : List Char) (h : isJsWs c = true) :
    nlMarker.isPrefixOf (c :: l) = false := by
  have hm : nlMarker = '_' :: "_NEWLINE__".toList := rfl
  rw [hm]
  simp only [List.isPrefixOf, Bool.and_eq_false_iff]
  left
  simp only [beq_eq_false_iff_ne, ne_eq]
  intro hc
  rw [← hc] at h
  exact absurd h (by decide)

/-- Decoding walks over leading whitespace unchanged. -/
theorem decodeNL_ws_append :
    ∀ (w u : List Char), (∀ c ∈ w, isJsWs c = true) →
      decodeNL (w ++ u) = w ++ decodeNL u := by
  intro w
  induction w with
  | nil => intro u _; rfl
  | cons c w ih =>
    intro u hw
    have hc : isJsWs c = true := hw c (List.mem_cons_self c w)
    rw [List.cons_append, decodeNL_cons, nlMarker_not_at_ws c _ hc]
    simp [ih u (fun x hx => hw x (List.mem_cons_of_mem c hx))]

/-- Trimming ignores prepended whitespace. -/
theorem trimJs_ws_append (w u : List Char) (hw : ∀ c ∈ w, isJsWs c = true) :
    trimJs (w ++ u) = trimJs u := by
  unfold trimJs
  rw [List.dropWhile_append_of_pos hw]

/-- A run of whitespace trims to nothing. -/
theorem trimJs_of_all_ws (s : List Char) (hs : ∀ c ∈ s, isJsWs c = true) :
    trimJs s = [] := by
  unfold trimJs
  rw [List.dropWhile_eq_nil_iff.mpr hs]
  rfl

end DiffDigest

namespace DiffDigest

/-! ## Characterizing the regexes on `.`-only text

On text free of the characters `.` does not match, the lazy capture always
succeeds, so the greedy `\s*` keeps its maximum and the leftmost match is
simply the first occurrence of the marker. -/

/-- On `.`-only text the lazy capture succeeds and captures up to the first
occurrence of the lookahead (to the end when absent). -/
theorem lazyCapture_of_allDot (next : List Char) :
    ∀ u : List Char, (∀ c ∈ u, isDot c = true) →
      lazyCapture next u = some (takeUntilSub next u) := by
  intro u
  induction u with
  | nil =>
    intro _
    by_cases h : next.isPrefixOf ([] : List Char) <;> simp [lazyCapture, takeUntilSub, h]
  | cons c rest ih =>
    intro hu
    by_cases h : next.isPrefixOf (c :: rest)
    · simp [lazyCapture, takeUntilSub, h]
    · rw [lazyCapture, takeUntilSub, if_neg h, if_neg h,
        if_pos (hu c (List.mem_cons_self c rest)),
        ih (fun x hx => hu x (List.mem_cons_of_mem c hx))]
      rfl

/-- On `.`-only text the end-anchored lazy capture captures everything. -/
theorem lazyCaptureEnd_of_allDot :
    ∀ u : List Char, (∀ c ∈ u, isDot c = true) → lazyCaptureEnd u = some u := by
  intro u
  induction u with
  | nil => intro _; rfl
  | cons c rest ih =>
    intro hu
    rw [lazyCaptureEnd, if_pos (hu c (List.mem_cons_self c rest)),
      ih (fun x hx => hu x (List.mem_cons_of_mem c hx))]
    rfl

/-- On `.`-only text the lazy capture never fails, so greedy `\s*` keeps
its maximum and the capture starts after the whitespace run. -/
theorem wsThenCapture_lazy (next : List Char) :
    ∀ s : List Char, (∀ c ∈ s, isDot c = true) →
      wsThenCapture (lazyCapture next) s =
        some (takeUntilSub next (s.dropWhile isJsWs)) := by
  intro s
  induction s with
  | nil => intro _; exact lazyCapture_of_allDot next [] (by simp)
  | cons c rest ih =>
    intro hs
    by_cases hc : isJsWs c
    · rw [wsThenCapture, if_pos hc, List.dropWhile_cons_of_pos hc,
        ih (fun x hx => hs x (List.mem_cons_of_mem c hx))]
    · rw [wsThenCapture, if_neg hc, List.dropWhile_cons_of_neg hc,
        lazyCapture_of_allDot next (c :: rest) hs]

/-- End-anchored version of `wsThenCapture_lazy`. -/
theorem wsThenCapture_lazyEnd :
    ∀ s : List Char, (∀ c ∈ s, isDot c = true) →
      wsThenCapture lazyCaptureEnd s = some (s.dropWhile isJsWs) := by
  intro s
  induction s with
  | nil => intro _; rfl
  | cons c rest ih =>
    intro hs
    by_cases hc : isJsWs c
    · rw [wsThenCapture, if_pos hc, List.dropWhile_cons_of_pos hc,
        ih (fun x hx => hs x (List.mem_cons_of_mem c hx))]
    · rw [wsThenCapture, if_neg hc, List.dropWhile_cons_of_neg hc,
        lazyCaptureEnd_of_allDot (c :: rest) hs]

/-- On `.`-only text the leftmost regex match is the first occurrence of
the marker, and the capture runs to the first occurrence of the lookahead
after the skipped whitespace. -/
theorem findSection_of_allDot (marker next : List Char) :
    ∀ s : List Char, (∀ c ∈ s, isDot c = true) →
      findSection marker (lazyCapture next) s =
        (dropToSub marker s).map (fun t => takeUntilSub next (t.dropWhile isJsWs)) := by
  intro s
  induction s with
  | nil =>
    intro _
    by_cases h : marker.isPrefixOf ([] : List Char)
    · rw [findSection, if_pos h, dropToSub, if_pos h,
        wsThenCapture_lazy next [] (by simp)]
      rfl
    · rw [findSection, if_neg h, dropToSub, if_neg h]
      rfl
  | cons c rest ih =>
    intro hs
    by_cases h : marker.isPrefixOf (c :: rest)
    · have hdrop : ∀ x ∈ (c :: rest).drop marker.length, isDot x = true :=
        fun x hx => hs x (List.mem_of_mem_drop hx)
      rw [findSection, if_pos h, wsThenCapture_lazy next _ hdrop, dropToSub, if_pos h]
      rfl
    · rw [findSection, if_neg h, dropToSub, if_neg h,
        ih (fun x hx => hs x (List.mem_cons_of_mem c hx))]

/-- End-anchored version of `findSection_of_allDot`. -/
theorem findSectionEnd_of_allDot (marker : List Char) :
    ∀ s : List Char, (∀ c ∈ s, isDot c = true) →
      findSection marker lazyCaptureEnd s =
        (dropToSub marker s).map (fun t => t.dropWhile isJsWs) := by
  intro s
  induction s with
  | nil =>
    intro _
    by_cases h : marker.isPrefixOf ([] : List Char)
    · rw [findSection, if_pos h, dropToSub, if_pos h, wsThenCapture_lazyEnd [] (by simp)]
      rfl
    · rw [findSection, if_neg h, dropToSub, if_neg h]
      rfl
  | cons c rest ih =>
    intro hs
    by_cases h : marker.isPrefixOf (c :: rest)
    · have hdrop : ∀ x ∈ (c :: rest).drop marker.length, isDot x = true :=
        fun x hx => hs x (List.mem_of_mem_drop hx)
      rw [findSection, if_pos h, wsThenCapture_lazyEnd _ hdrop, dropToSub, if_pos h]
      rfl
    · rw [findSection, if_neg h, dropToSub, if_neg h,
        ih (fun x hx => hs x (List.mem_cons_of_mem c hx))]

/-- On `.`-only text one section extraction equals its first-occurrence
description. -/
theorem extractSection_of_allDot (marker next s : List Char)
    (hs : ∀ c ∈ s, isDot c = true) :
    extractSection marker next s = sectionSpec marker next s := by
  rw [extractSection, sectionSpec, findSection_of_allDot marker next s hs]
  cases dropToSub marker s <;> rfl

/-- End-anchored version of `extractSection_of_allDot`. -/
theorem extractLast_of_allDot (marker s : List Char)
    (hs : ∀ c ∈ s, isDot c = true) :
    extractLast marker s = sectionSpecEnd marker s := by
  rw [extractLast, sectionSpecEnd, findSectionEnd_of_allDot marker s hs]
  cases dropToSub marker s <;> rfl

/-- Encoding a clean buffer produces `.`-only text. -/
theorem encodeNL_allDot :
    ∀ t : List Char, cleanText t → ∀ c ∈ encodeNL t, isDot c = true := by
  intro t
  induction t with
  | nil => intro _ c hc; simp [encodeNL] at hc
  | cons a t ih =>
    intro ht c hc
    rw [encodeNL] at hc
    rcases List.mem_append.mp hc with h | h
    · by_cases ha : a = '\n'
      · rw [if_pos ha] at h
        revert h
        have : ∀ c ∈ nlToken, isDot c = true := by decide
        exact this c
      · rw [if_neg ha] at h
        rcases ht a (List.mem_cons_self a t) with h' | h'
        · exact absurd h' ha
        · simp at h
          rwa [h]
    · exact ih (fun x hx => ht x (List.mem_cons_of_mem a hx)) c h

/-- Encoding is a homomorphism for append. -/
theorem encodeNL_append :
    ∀ x y : List Char, encodeNL (x ++ y) = encodeNL x ++ encodeNL y := by
  intro x y
  induction x with
  | nil => rfl
  | cons c x ih => simp [encodeNL, ih]

/-- On clean buffers the whole parser equals its first-occurrence
description: every section runs from just after the first occurrence of its
marker to the first occurrence of its immediate canonical successor's
marker, and to the end of the buffer when that marker is absent. -/
theorem parseNotes_eq_spec (text : List Char) (h : cleanText text) :
    parseNotes text = parseNotesSpec text := by
  have hd := encodeNL_allDot text h
  rw [parseNotes, parseNotesSpec]
  simp only [extractSection_of_allDot _ _ _ hd, extractLast_of_allDot _ _ hd]

end DiffDigest

namespace DiffDigest

/-- C1 (amended): for every buffer free of CR / U+2028 / U+2029,
`parseNotes` assigns to each tag T the text from just after the first
occurrence of T's marker (after the skipped whitespace) up to the first
following occurrence of the marker of T's *immediate* canonical successor
only; if that one marker is absent the content runs to the end of the
buffer even when markers of later tags are present.  (`parseNotesSpec`
states this first-occurrence reading; `C1_counterexample` shows the
original claim's boundary — any later-canonical marker — is wrong.) -/
theorem C1_theorem (text : List Char) (h : cleanText text) :
    parseNotes text = parseNotesSpec text :=
  parseNotes_eq_spec text h

/-- Witness for `C1_theorem` at the counterexample buffer. -/
theorem C1_witness :
    cleanText "DEVELOPER: x FEEDBACK: y".toList ∧
    parseNotes "DEVELOPER: x FEEDBACK: y".toList =
      parseNotesSpec "DEVELOPER: x FEEDBACK: y".toList :=
  ⟨by decide, C1_theorem "DEVELOPER: x FEEDBACK: y".toList (by decide)⟩

/-! ## Marker absence: the encoding cannot create marker occurrences -/

/-- A pattern without spaces that matches at the front of an encoded buffer
also matches at the front of the raw buffer: the inserted placeholder block
starts with a space. -/
theorem isPrefixOf_encodeNL :
    ∀ m : List Char, ' ' ∉ m →
      ∀ t : List Char, m.isPrefixOf (encodeNL t) = true → m.isPrefixOf t = true := by
  intro m
  induction m with
  | nil => intro _ t _; simp
  | cons d m ih =>
    intro hm t h
    cases t with
    | nil => simp [encodeNL] at h
    | cons c t =>
      rw [encodeNL] at h
      by_cases hc : c = '\n'
      · rw [if_pos hc] at h
        have : nlToken ++ encodeNL t = ' ' :: ("__NEWLINE__ ".toList ++ encodeNL t) := rfl
        rw [this] at h
        simp only [List.isPrefixOf, Bool.and_eq_true, beq_iff_eq] at h
        exact absurd (h.1 ▸ List.mem_cons_self d m) hm
      · rw [if_neg hc, List.singleton_append] at h
        simp only [List.isPrefixOf, Bool.and_eq_true] at h ⊢
        exact ⟨h.1, ih (fun hx => hm (List.mem_cons_of_mem d hx)) t h.2⟩

/-- Scanning for a pattern steps over a character its head cannot match. -/
theorem includesSub_cons_of_head_ne (d : Char) (m : List Char) (x : Char)
    (l : List Char) (hx : (d == x) = false) :
    includesSub (d :: m) (x :: l) = includesSub (d :: m) l := by
  rw [includesSub, List.isPrefixOf_cons₂, hx, Bool.false_and, Bool.false_or]

/-- A marker that contains no space and does not begin with a placeholder
character occurs in an encoded buffer only if it occurs in the raw buffer. -/
theorem includesSub_encodeNL (d : Char) (m : List Char)
    (hd : d ≠ ' ' ∧ d ≠ '_' ∧ d ≠ 'N' ∧ d ≠ 'E' ∧ d ≠ 'W' ∧ d ≠ 'L' ∧ d ≠ 'I')
    (hm : ' ' ∉ (d :: m)) :
    ∀ t : List Char, includesSub (d :: m) (encodeNL t) = true →
      includesSub (d :: m) t = true := by
  obtain ⟨h1, h2, h3, h4, h5, h6, h7⟩ := hd
  have b1 : (d == ' ') = false := beq_eq_false_iff_ne.mpr h1
  have b2 : (d == '_') = false := beq_eq_false_iff_ne.mpr h2
  have b3 : (d == 'N') = false := beq_eq_false_iff_ne.mpr h3
  have b4 : (d == 'E') = false := beq_eq_false_iff_ne.mpr h4
  have b5 : (d == 'W') = false := beq_eq_false_iff_ne.mpr h5
  have b6 : (d == 'L') = false := beq_eq_false_iff_ne.mpr h6
  have b7 : (d == 'I') = false := beq_eq_false_iff_ne.mpr h7
  intro t
  induction t with
  | nil =>
    intro h
    rw [encodeNL] at h
    exact h
  | cons c t ih =>
    intro h
    rw [encodeNL] at h
    by_cases hc : c = '\n'
    · rw [if_pos hc] at h
      have htok : nlToken ++ encodeNL t =
          ' ' :: '_' :: '_' :: 'N' :: 'E' :: 'W' :: 'L' :: 'I' :: 'N' :: 'E' ::
            '_' :: '_' :: ' ' :: encodeNL t := rfl
      rw [htok, includesSub_cons_of_head_ne d m _ _ b1,
        includesSub_cons_of_head_ne d m _ _ b2, includesSub_cons_of_head_ne d m _ _ b2,
        includesSub_cons_of_head_ne d m _ _ b3, includesSub_cons_of_head_ne d m _ _ b4,
        includesSub_cons_of_head_ne d m _ _ b5, includesSub_cons_of_head_ne d m _ _ b6,
        includesSub_cons_of_head_ne d m _ _ b7, includesSub_cons_of_head_ne d m _ _ b3,
        includesSub_cons_of_head_ne d m _ _ b4, includesSub_cons_of_head_ne d m _ _ b2,
        includesSub_cons_of_head_ne d m _ _ b2, includesSub_cons_of_head_ne d m _ _ b1] at h
      rw [includesSub, ih h, Bool.or_true]
    · rw [if_neg hc, List.singleton_append] at h
      rw [includesSub] at h
      rw [includesSub]
      rcases Bool.or_eq_true_iff.mp h with hx | hx
      · have hp : (d :: m).isPrefixOf (encodeNL (c :: t)) = true := by
          rw [encodeNL, if_neg hc, List.singleton_append]
          exact hx
        rw [isPrefixOf_encodeNL (d :: m) hm (c :: t) hp, Bool.true_or]
      · rw [ih hx, Bool.or_true]

/-- A marker that does not occur anywhere makes the regex fail. -/
theorem findSection_none_of_absent (marker : List Char)
    (cap : List Char → Option (List Char)) :
    ∀ s : List Char, includesSub marker s = false → findSection marker cap s = none := by
  intro s
  induction s with
  | nil =>
    intro h
    rw [includesSub] at h
    cases marker with
    | nil => simp at h
    | cons d m => rw [findSection, if_neg (by simp)]
  | cons c rest ih =>
    intro h
    rw [includesSub, Bool.or_eq_false_iff] at h
    rw [findSection, if_neg (by simp [h.1]), ih h.2]

end DiffDigest

namespace DiffDigest

/-- Contrapositive packaging: a marker absent from the raw buffer is absent
from the encoded buffer. -/
theorem encode_absent (d : Char) (m : List Char)
    (hd : d ≠ ' ' ∧ d ≠ '_' ∧ d ≠ 'N' ∧ d ≠ 'E' ∧ d ≠ 'W' ∧ d ≠ 'L' ∧ d ≠ 'I')
    (hm : ' ' ∉ (d :: m)) (text : List Char)
    (h : includesSub (d :: m) text = false) :
    includesSub (d :: m) (encodeNL text) = false := by
  cases he : includesSub (d :: m) (encodeNL text) with
  | false => rfl
  | true =>
    exact absurd (includesSub_encodeNL d m hd hm text he) (by simp [h])

/-- A section whose marker is absent from the buffer is empty. -/
theorem extract_of_marker_absent (d : Char) (m next : List Char)
    (hd : d ≠ ' ' ∧ d ≠ '_' ∧ d ≠ 'N' ∧ d ≠ 'E' ∧ d ≠ 'W' ∧ d ≠ 'L' ∧ d ≠ 'I')
    (hm : ' ' ∉ (d :: m)) (text : List Char)
    (h : includesSub (d :: m) text = false) :
    extractSection (d :: m) next (encodeNL text) = [] := by
  have hn := findSection_none_of_absent (d :: m) (lazyCapture next) (encodeNL text)
    (encode_absent d m hd hm text h)
  simp [extractSection, hn]

/-- Last-section version of `extract_of_marker_absent`. -/
theorem extractLast_of_marker_absent (d : Char) (m : List Char)
    (hd : d ≠ ' ' ∧ d ≠ '_' ∧ d ≠ 'N' ∧ d ≠ 'E' ∧ d ≠ 'W' ∧ d ≠ 'L' ∧ d ≠ 'I')
    (hm : ' ' ∉ (d :: m)) (text : List Char)
    (h : includesSub (d :: m) text = false) :
    extractLast (d :: m) (encodeNL text) = [] := by
  have hn := findSection_none_of_absent (d :: m) lazyCaptureEnd (encodeNL text)
    (encode_absent d m hd hm text h)
  simp [extractLast, hn]

/-- C5: for every buffer, a tag whose marker is absent from the buffer is
mapped to the empty string; and a non-empty buffer containing no recognized
marker at all parses to all-empty sections (and, the embedding being total,
no exception is raised). -/
theorem C5_theorem (text : List Char) :
    ((includesSub "DEVELOPER:".toList text = false → (parseNotes text).devNote = []) ∧
     (includesSub "MARKETING:".toList text = false → (parseNotes text).marketingNote = []) ∧
     (includesSub "FEEDBACK:".toList text = false → (parseNotes text).feedback = []) ∧
     (includesSub "SECURITY:".toList text = false → (parseNotes text).security = []) ∧
     (includesSub "READABILITY:".toList text = false → (parseNotes text).readability = []) ∧
     (includesSub "TESTS:".toList text = false → (parseNotes text).tests = []) ∧
     (includesSub "CONTRIBUTORS:".toList text = false → (parseNotes text).contributors = []) ∧
     (includesSub "CHANGES:".toList text = false → (parseNotes text).changes = [])) ∧
    (text ≠ [] → (∀ m ∈ sectionMarkers, includesSub m text = false) →
      parseNotes text = emptyNotes) := by
  have k1 : includesSub "DEVELOPER:".toList text = false →
      (parseNotes text).devNote = [] := fun h => by
    simpa [parseNotes] using
      extract_of_marker_absent 'D' "EVELOPER:".toList "MARKETING:".toList
        (by decide) (by decide) text h
  have k2 : includesSub "MARKETING:".toList text = false →
      (parseNotes text).marketingNote = [] := fun h => by
    simpa [parseNotes] using
      extract_of_marker_absent 'M' "ARKETING:".toList "FEEDBACK:".toList
        (by decide) (by decide) text h
  have k3 : includesSub "FEEDBACK:".toList text = false →
      (parseNotes text).feedback = [] := fun h => by
    simpa [parseNotes] using
      extract_of_marker_absent 'F' "EEDBACK:".toList "SECURITY:".toList
        (by decide) (by decide) text h
  have k4 : includesSub "SECURITY:".toList text = false →
      (parseNotes text).security = [] := fun h => by
    simpa [parseNotes] using
      extract_of_marker_absent 'S' "ECURITY:".toList "READABILITY:".toList
        (by decide) (by decide) text h
  have k5 : includesSub "READABILITY:".toList text = false →
      (parseNotes text).readability = [] := fun h => by
    simpa [parseNotes] using
      extract_of_marker_absent 'R' "EADABILITY:".toList "TESTS:".toList
        (by decide) (by decide) text h
  have k6 : includesSub "TESTS:".toList text = false →
      (parseNotes text).tests = [] := fun h => by
    simpa [parseNotes] using
      extract_of_marker_absent 'T' "ESTS:".toList "CONTRIBUTORS:".toList
        (by decide) (by decide) text h
  have k7 : includesSub "CONTRIBUTORS:".toList text = false →
      (parseNotes text).contributors = [] := fun h => by
    simpa [parseNotes] using
      extract_of_marker_absent 'C' "ONTRIBUTORS:".toList "CHANGES:".toList
        (by decide) (by decide) text h
  have k8 : includesSub "CHANGES:".toList text = false →
      (parseNotes text).changes = [] := fun h => by
    simpa [parseNotes] using
      extractLast_of_marker_absent 'C' "HANGES:".toList
        (by decide) (by decide) text h
  refine ⟨⟨k1, k2, k3, k4, k5, k6, k7, k8⟩, fun _ hall => ?_⟩
  have a1 := k1 (hall _ (by simp [sectionMarkers]))
  have a2 := k2 (hall _ (by simp [sectionMarkers]))
  have a3 := k3 (hall _ (by simp [sectionMarkers]))
  have a4 := k4 (hall _ (by simp [sectionMarkers]))
  have a5 := k5 (hall _ (by simp [sectionMarkers]))
  have a6 := k6 (hall _ (by simp [sectionMarkers]))
  have a7 := k7 (hall _ (by simp [sectionMarkers]))
  have a8 := k8 (hall _ (by simp [sectionMarkers]))
  cases hp : parseNotes text
  rw [hp] at a1 a2 a3 a4 a5 a6 a7 a8
  simp only at a1 a2 a3 a4 a5 a6 a7 a8
  rw [emptyNotes, a1, a2, a3, a4, a5, a6, a7, a8]

/-- Witness for `C5_theorem` at the degraded example buffer. -/
theorem C5_witness :
    parseNotes "garbage with no markers at all".toList = emptyNotes :=
  ( C5_theorem ("garbage with no markers at all".toList)).2 (by decide) (by decide)

/-- C4: `parseNotes` never throws past its boundary — with no internal
error it returns a section map for every input; and in the defensive case
where an internal error occurs while the buffer contains the first
configured tag's marker, it returns the entire buffer as the DEVELOPER
content with all other sections empty. -/
theorem C4_theorem :
    (∀ text : List Char, parseNotesE false text = Except.ok (parseNotes text)) ∧
    (∀ text : List Char, includesSub "DEVELOPER:".toList text = true →
      parseNotesE true text = Except.ok { emptyNotes with devNote := text }) := by
  constructor
  · intro text
    rfl
  · intro text h
    unfold parseNotesE
    rw [if_pos rfl, if_pos h]

/-- Witness for `C4_theorem` at concrete inputs. -/
theorem C4_witness :
    parseNotesE false "x".toList = Except.ok (parseNotes "x".toList) ∧
    parseNotesE true "DEVELOPER: a".toList =
      Except.ok { emptyNotes with devNote := "DEVELOPER: a".toList } :=
  ⟨C4_theorem.1 "x".toList, C4_theorem.2 "DEVELOPER: a".toList (by decide)⟩

/-- C6: `parseNotes` is a pure function of its input string — two
invocations on the same string yield identical section maps, with no state
carried between calls (the embedding is a function of the string alone). -/
theorem C6_theorem (t1 t2 : List Char) (h : t1 = t2) : parseNotes t1 = parseNotes t2 := by
  rw [h]

/-- Witness for `C6_theorem` at a concrete repeated invocation. -/
theorem C6_witness :
    parseNotes "DEVELOPER: twice".toList = parseNotes "DEVELOPER: twice".toList :=
  C6_theorem "DEVELOPER: twice".toList "DEVELOPER: twice".toList rfl

/-- C8: starting a generation while one is in flight for the same record is
a silent no-op: the guard returns without opening a stream, resetting note
state, or changing anything. -/
theorem C8_theorem (s : CardState) (h : s.isGenerating = true) :
    handleGenerateNotes s = (s, false) := by
  simp [handleGenerateNotes, h]

/-- Witness for `C8_theorem` at a concrete in-flight state. -/
theorem C8_witness :
    handleGenerateNotes ⟨⟨"keep".toList, [], true, [], [], []⟩, none, true⟩ =
      (⟨⟨"keep".toList, [], true, [], [], []⟩, none, true⟩, false) :=
  C8_theorem ⟨⟨"keep".toList, [], true, [], [], []⟩, none, true⟩ rfl

/-- C2 (amended): once the 30-second timer has fired, the session error
stays the timeout message and `isGenerating` stays false under every
further event; the one chunk whose read was already in flight is still
processed (see `C2_counterexample`), after which the loop has stopped; and
with the loop stopped every further event — chunk, timer or completion —
leaves the state unchanged, so chunks are discarded from then on. -/
theorem C2_theorem (s : ConsumerState) (h : postTimeout s) :
    (∀ e : StreamEvent, postTimeout (consumeStep s e)) ∧
    (∀ t : List Char, (consumeStep s (StreamEvent.chunk t)).reading = false) ∧
    (s.reading = false → ∀ e : StreamEvent, consumeStep s e = s) := by
  obtain ⟨ha, ht, he, hg⟩ := h
  refine ⟨fun e => ?_, fun t => ?_, fun hr e => ?_⟩
  · cases e with
    | chunk t => by_cases hr : s.reading <;>
        simp [consumeStep, postTimeout, ha, ht, he, hg, hr]
    | timerFire => simp [consumeStep, postTimeout, ha, ht, he, hg]
    | streamDone => by_cases hr : s.reading <;>
        simp [consumeStep, postTimeout, ha, ht, he, hg, hr]
  · by_cases hr : s.reading <;> simp [consumeStep, ha, hr]
  · cases e with
    | chunk t => simp [consumeStep, hr]
    | timerFire => simp [consumeStep, ht]
    | streamDone => simp [consumeStep, hr]

/-- Witness for `C2_theorem` at the post-timeout state reached in the
counterexample trace. -/
theorem C2_witness :
    postTimeout (runConsumer (startConsumer ⟨[], [], true, [], [], []⟩)
      [StreamEvent.chunk "DEVELOPER: a".toList, StreamEvent.timerFire]) ∧
    (consumeStep (runConsumer (startConsumer ⟨[], [], true, [], [], []⟩)
        [StreamEvent.chunk "DEVELOPER: a".toList, StreamEvent.timerFire])
      (StreamEvent.chunk "b".toList)).reading = false :=
  ⟨by decide,
   (C2_theorem (runConsumer (startConsumer ⟨[], [], true, [], [], []⟩)
      [StreamEvent.chunk "DEVELOPER: a".toList, StreamEvent.timerFire])
      (by decide)).2.1 "b".toList⟩

end DiffDigest

namespace DiffDigest

/-! ## Stabilization under appended text -/

/-- A prefix match survives appending text on the right. -/
theorem isPrefixOf_extend (m x r : List Char) (h : m.isPrefixOf x = true) :
    m.isPrefixOf (x ++ r) = true := by
  rw [isPrefixOf_append_of_length_le m x (length_le_of_isPrefixOf m x h) r]
  exact h

/-- The empty pattern occurs at position zero. -/
theorem dropToSub_nil_pat (r : List Char) : dropToSub ([] : List Char) r = some r := by
  cases r with
  | nil => rfl
  | cons c rest => rw [dropToSub, if_pos (by simp)]; rfl

/-- A found occurrence needs at least the pattern's length of text. -/
theorem length_le_of_dropToSub (m : List Char) :
    ∀ (l t : List Char), dropToSub m l = some t → m.length ≤ l.length := by
  intro l
  induction l with
  | nil =>
    intro t h
    cases m with
    | nil => simp
    | cons d m2 => rw [dropToSub, if_neg (by simp)] at h; exact absurd h (by simp)
  | cons c rest ih =>
    intro t h
    by_cases hp : m.isPrefixOf (c :: rest) = true
    · exact length_le_of_isPrefixOf m (c :: rest) hp
    · rw [dropToSub, if_neg (by simp [hp])] at h
      exact le_trans (ih t h) (by simp)

/-- Occurrence needs at least the pattern's length of text. -/
theorem length_le_of_includesSub (n : List Char) :
    ∀ u : List Char, includesSub n u = true → n.length ≤ u.length := by
  intro u
  induction u with
  | nil =>
    intro h
    rw [includesSub] at h
    simp [List.isEmpty_iff.mp h]
  | cons c rest ih =>
    intro h
    rw [includesSub] at h
    rcases Bool.or_eq_true_iff.mp h with hx | hx
    · exact length_le_of_isPrefixOf n (c :: rest) hx
    · exact le_trans (ih hx) (by simp)

/-- The text after the first occurrence of a marker grows by exactly the
appended text. -/
theorem dropToSub_extend (m : List Char) :
    ∀ (s r t : List Char), dropToSub m s = some t →
      dropToSub m (s ++ r) = some (t ++ r) := by
  intro s
  induction s with
  | nil =>
    intro r t h
    cases m with
    | nil =>
      rw [dropToSub_nil_pat] at h
      cases h
      exact dropToSub_nil_pat r
    | cons d m2 => rw [dropToSub, if_neg (by simp)] at h; exact absurd h (by simp)
  | cons c rest ih =>
    intro r t h
    by_cases hp : m.isPrefixOf (c :: rest) = true
    · rw [dropToSub, if_pos hp] at h
      have hlen := length_le_of_isPrefixOf m (c :: rest) hp
      have hext := isPrefixOf_extend m (c :: rest) r hp
      rw [List.cons_append] at hext
      rw [List.cons_append, dropToSub, if_pos hext]
      have hdrop := @List.drop_append_of_le_length _ (c :: rest) r _ hlen
      rw [List.cons_append] at hdrop
      rw [hdrop]
      cases h
      rfl
    · rw [dropToSub, if_neg (by simp [hp])] at h
      have hlen : m.length ≤ (c :: rest).length :=
        le_trans (length_le_of_dropToSub m rest t h) (by simp)
      have hst : m.isPrefixOf ((c :: rest) ++ r) = m.isPrefixOf (c :: rest) :=
        isPrefixOf_append_of_length_le m (c :: rest) hlen r
      rw [List.cons_append] at hst
      rw [List.cons_append, dropToSub, hst, if_neg (by simp [hp])]
      exact ih r t h

/-- A capture that was closed by a found occurrence does not change when
text is appended. -/
theorem takeUntilSub_extend (n : List Char) :
    ∀ (u r : List Char), includesSub n u = true →
      takeUntilSub n (u ++ r) = takeUntilSub n u := by
  intro u
  induction u with
  | nil =>
    intro r h
    rw [includesSub] at h
    rw [List.isEmpty_iff.mp h]
    cases r with
    | nil => rfl
    | cons c rest => simp [takeUntilSub]
  | cons c rest ih =>
    intro r h
    rw [includesSub] at h
    by_cases hp : n.isPrefixOf (c :: rest) = true
    · have hext := isPrefixOf_extend n (c :: rest) r hp
      rw [List.cons_append] at hext
      rw [List.cons_append, takeUntilSub, if_pos hext, takeUntilSub, if_pos hp]
    · rcases Bool.or_eq_true_iff.mp h with hx | hx
      · exact absurd hx hp
      · have hlen : n.length ≤ (c :: rest).length :=
          le_trans (length_le_of_includesSub n rest hx) (by simp)
        have hst : n.isPrefixOf ((c :: rest) ++ r) = n.isPrefixOf (c :: rest) :=
          isPrefixOf_append_of_length_le n (c :: rest) hlen r
        rw [List.cons_append] at hst
        rw [List.cons_append, takeUntilSub, hst, if_neg (by simp [hp]),
          takeUntilSub, if_neg (by simp [hp]), ih r hx]

/-- Evaluating `sectionSpec` at a found marker occurrence. -/
theorem sectionSpec_eq_of_found (marker next s t : List Char)
    (h : dropToSub marker s = some t) :
    sectionSpec marker next s =
      if (takeUntilSub next (t.dropWhile isJsWs)).isEmpty then []
      else trimJs (decodeNL (takeUntilSub next (t.dropWhile isJsWs))) := by
  rw [sectionSpec, h]

/-- Evaluating `sectionSpecEnd` at a found marker occurrence. -/
theorem sectionSpecEnd_eq_of_found (marker s t : List Char)
    (h : dropToSub marker s = some t) :
    sectionSpecEnd marker s =
      if (t.dropWhile isJsWs).isEmpty then []
      else trimJs (decodeNL (t.dropWhile isJsWs)) := by
  rw [sectionSpecEnd, h]

/-- Stabilization of one completed section: when the closing marker has
been seen after the section's marker, appending `.`-only text does not
change the extracted content. -/
theorem extractSection_stable (mk nx : List Char) (hnx : nx ≠ []) (s r : List Char)
    (hs : ∀ c ∈ s, isDot c = true) (hr : ∀ c ∈ r, isDot c = true)
    (t : List Char) (h1 : dropToSub mk s = some t)
    (h2 : includesSub nx (t.dropWhile isJsWs) = true) :
    extractSection mk nx (s ++ r) = extractSection mk nx s := by
  have hsr : ∀ c ∈ s ++ r, isDot c = true := fun c hc =>
    (List.mem_append.mp hc).elim (hs c) (hr c)
  rw [extractSection_of_allDot mk nx (s ++ r) hsr, extractSection_of_allDot mk nx s hs,
    sectionSpec_eq_of_found mk nx s t h1,
    sectionSpec_eq_of_found mk nx (s ++ r) (t ++ r) (dropToSub_extend mk s r t h1)]
  have hne : t.dropWhile isJsWs ≠ [] := by
    intro h0
    rw [h0, includesSub] at h2
    exact hnx (List.isEmpty_iff.mp h2)
  have hd : (t ++ r).dropWhile isJsWs = t.dropWhile isJsWs ++ r := by
    rw [List.dropWhile_append, if_neg (by simp [hne])]
  rw [hd, takeUntilSub_extend nx (t.dropWhile isJsWs) r h2]

/-- C7 (amended): for buffers and extensions free of CR / U+2028 / U+2029,
once a section's own marker has appeared and its closing marker has
appeared after it (past the skipped whitespace), `parseNotes` yields
identical content for that section on the prefix and on every extension —
content of completed non-last sections never changes as text arrives.
(`C7_counterexample` shows the original unconditional claim fails on a
carriage return inside the section.) -/
theorem C7_theorem (p q : List Char) (hp : cleanText p) (hq : cleanText q) :
    (sectionClosed "DEVELOPER:".toList "MARKETING:".toList p →
      (parseNotes (p ++ q)).devNote = (parseNotes p).devNote) ∧
    (sectionClosed "MARKETING:".toList "FEEDBACK:".toList p →
      (parseNotes (p ++ q)).marketingNote = (parseNotes p).marketingNote) ∧
    (sectionClosed "FEEDBACK:".toList "SECURITY:".toList p →
      (parseNotes (p ++ q)).feedback = (parseNotes p).feedback) ∧
    (sectionClosed "SECURITY:".toList "READABILITY:".toList p →
      (parseNotes (p ++ q)).security = (parseNotes p).security) ∧
    (sectionClosed "READABILITY:".toList "TESTS:".toList p →
      (parseNotes (p ++ q)).readability = (parseNotes p).readability) ∧
    (sectionClosed "TESTS:".toList "CONTRIBUTORS:".toList p →
      (parseNotes (p ++ q)).tests = (parseNotes p).tests) ∧
    (sectionClosed "CONTRIBUTORS:".toList "CHANGES:".toList p →
      (parseNotes (p ++ q)).contributors = (parseNotes p).contributors) := by
  have hdp := encodeNL_allDot p hp
  have hdq := encodeNL_allDot q hq
  have key : ∀ mk nx : List Char, nx ≠ [] → sectionClosed mk nx p →
      extractSection mk nx (encodeNL (p ++ q)) = extractSection mk nx (encodeNL p) := by
    intro mk nx hnx ⟨t, h1, h2⟩
    rw [encodeNL_append]
    exact extractSection_stable mk nx hnx (encodeNL p) (encodeNL q) hdp hdq t h1 h2
  refine ⟨fun h => ?_, fun h => ?_, fun h => ?_, fun h => ?_, fun h => ?_,
    fun h => ?_, fun h => ?_⟩ <;>
    simpa [parseNotes] using key _ _ (by decide) h

/-- Witness for `C7_theorem`: a completed DEVELOPER section stays fixed
under an appended tail. -/
theorem C7_witness :
    (parseNotes ("DEVELOPER: a\nMARKETING: b".toList ++ " and more".toList)).devNote =
      (parseNotes "DEVELOPER: a\nMARKETING: b".toList).devNote :=
  ( C7_theorem ("DEVELOPER: a\nMARKETING: b".toList) (" and more".toList)
      (by decide) (by decide)).1
    ⟨" a __NEWLINE__ MARKETING: b".toList, by decide, by decide⟩

end DiffDigest

namespace DiffDigest

/-! ## Extraction from a canonically tagged buffer -/

/-- A marker occurs at the start of its own append. -/
theorem dropToSub_at_start (m z : List Char) : dropToSub m (m ++ z) = some z := by
  cases m with
  | nil => exact dropToSub_nil_pat z
  | cons d m2 =>
    have hpre := isPrefixOf_self_append (d :: m2) z
    have hdrop := List.drop_left (d :: m2) z
    rw [List.cons_append] at hpre hdrop
    rw [List.cons_append, dropToSub, if_pos hpre, hdrop]

/-- The first occurrence of a marker that starts nowhere inside `x` is the
designated copy right after `x`. -/
theorem dropToSub_append_found (m : List Char) :
    ∀ x z : List Char, noStart m x (m ++ z) → dropToSub m (x ++ (m ++ z)) = some z := by
  intro x
  induction x with
  | nil => intro z _; exact dropToSub_at_start m z
  | cons a x ih =>
    intro z h
    have hfalse : m.isPrefixOf ((a :: x) ++ (m ++ z)) = false :=
      h (a :: x) (by rw [List.tails_cons]; exact List.mem_cons_self _ _) (by simp)
    rw [List.cons_append] at hfalse
    rw [List.cons_append, dropToSub, if_neg (by simp [hfalse])]
    exact ih z (fun y hy hne =>
      h y (by rw [List.tails_cons]; exact List.mem_cons_of_mem _ hy) hne)

/-- The capture closes immediately at the marker's own copy. -/
theorem takeUntilSub_at_start (n z : List Char) : takeUntilSub n (n ++ z) = [] := by
  cases n with
  | nil =>
    cases z with
    | nil => rfl
    | cons c rest => simp [takeUntilSub]
  | cons d n2 =>
    have hpre := isPrefixOf_self_append (d :: n2) z
    rw [List.cons_append] at hpre
    rw [List.cons_append, takeUntilSub, if_pos hpre]

/-- The capture runs exactly up to the marker copy right after `x` when the
marker starts nowhere inside `x`. -/
theorem takeUntilSub_append_found (n : List Char) :
    ∀ x z : List Char, noStart n x (n ++ z) → takeUntilSub n (x ++ (n ++ z)) = x := by
  intro x
  induction x with
  | nil => intro z _; exact takeUntilSub_at_start n z
  | cons a x ih =>
    intro z h
    have hfalse : n.isPrefixOf ((a :: x) ++ (n ++ z)) = false :=
      h (a :: x) (by rw [List.tails_cons]; exact List.mem_cons_self _ _) (by simp)
    rw [List.cons_append] at hfalse
    rw [List.cons_append, takeUntilSub, if_neg (by simp [hfalse])]
    rw [ih z (fun y hy hne =>
      h y (by rw [List.tails_cons]; exact List.mem_cons_of_mem _ hy) hne)]

/-- A pattern matching at the front of a suffix of `x` occurs in `x`. -/
theorem includesSub_of_tail (N : List Char) :
    ∀ x y : List Char, y ∈ x.tails → N.isPrefixOf y = true →
      includesSub N x = true := by
  intro x
  induction x with
  | nil =>
    intro y hy hp
    simp only [List.tails, List.mem_singleton] at hy
    subst hy
    cases N with
    | nil => rfl
    | cons d m => simp at hp
  | cons c x ih =>
    intro y hy hp
    rw [List.tails_cons] at hy
    rw [includesSub]
    rcases List.mem_cons.mp hy with h | h
    · subst h; rw [hp, Bool.true_or]
    · rw [ih y h hp, Bool.or_true]

/-- Matching across a junction: the part of the pattern beyond `y` matches
at the front of the continuation. -/
theorem isPrefixOf_drop_of_append :
    ∀ (y m w : List Char), m.isPrefixOf (y ++ w) = true → y.length ≤ m.length →
      (m.drop y.length).isPrefixOf w = true := by
  intro y
  induction y with
  | nil => intro m w h _; exact h
  | cons a y ih =>
    intro m w h hl
    cases m with
    | nil => simp at hl
    | cons d m =>
      rw [List.cons_append, List.isPrefixOf_cons₂, Bool.and_eq_true] at h
      simpa using ih m w h.2 (by simpa using hl)

/-- For a border-free pattern (no nonempty proper suffix of it is one of
its prefixes), not occurring inside `x` means not starting inside `x` even
when the pattern's own copy follows: a straddling match would exhibit a
border. -/
theorem noStart_of_no_occurrence (N x z : List Char)
    (hb : ∀ k, k < N.length → 0 < k → (N.drop k).isPrefixOf N = false)
    (hx : includesSub N x = false) :
    noStart N x (N ++ z) := by
  intro y hy hne
  by_cases hlen : N.length ≤ y.length
  · rw [isPrefixOf_append_of_length_le N y hlen (N ++ z)]
    cases hNy : N.isPrefixOf y with
    | false => rfl
    | true => exact absurd (includesSub_of_tail N x y hy hNy) (by simp [hx])
  · push_neg at hlen
    cases hNp : N.isPrefixOf (y ++ (N ++ z)) with
    | false => rfl
    | true =>
      have hdrop := isPrefixOf_drop_of_append y N (N ++ z) hNp (le_of_lt hlen)
      have hsm : (N.drop y.length).length ≤ N.length := by
        simp [List.length_drop]
      rw [isPrefixOf_append_of_length_le (N.drop y.length) N hsm z] at hdrop
      have hpos : 0 < y.length := List.length_pos.mpr hne
      exact absurd hdrop (by simp [hb y.length hlen hpos])

/-- An occurrence in a `dropWhile` suffix is an occurrence. -/
theorem includesSub_dropWhile (N : List Char) (p : Char → Bool) :
    ∀ u : List Char, includesSub N (u.dropWhile p) = true → includesSub N u = true := by
  intro u
  induction u with
  | nil => intro h; exact h
  | cons c u ih =>
    intro h
    by_cases hc : p c
    · rw [List.dropWhile_cons_of_pos hc] at h
      rw [includesSub, ih h, Bool.or_true]
    · rwa [List.dropWhile_cons_of_neg hc] at h

/-- Clean buffers are closed under append. -/
theorem cleanText_append (x y : List Char) (hx : cleanText x) (hy : cleanText y) :
    cleanText (x ++ y) := fun c hc => (List.mem_append.mp hc).elim (hx c) (hy c)

/-- One canonically placed section extracts to its own content, decoded and
trimmed. -/
theorem sectionSpec_canonical (M N P D R : List Char)
    (hP : noStart M P (M ++ (D ++ (N ++ R))))
    (hD : noStart N (D.dropWhile isJsWs) (N ++ R))
    (hN : ∃ n1 nr, N = n1 :: nr ∧ isJsWs n1 = false) :
    sectionSpec M N (P ++ (M ++ (D ++ (N ++ R)))) = trimJs (decodeNL D) := by
  obtain ⟨n1, nr, hNe, hn1⟩ := hN
  have hfound := dropToSub_append_found M P (D ++ (N ++ R)) hP
  rw [sectionSpec_eq_of_found M N _ _ hfound]
  by_cases hD0 : D.dropWhile isJsWs = []
  · have hallws : ∀ c ∈ D, isJsWs c = true := List.dropWhile_eq_nil_iff.mp hD0
    have hdw : (D ++ (N ++ R)).dropWhile isJsWs = N ++ R := by
      rw [List.dropWhile_append, if_pos (by simp [hD0])]
      rw [hNe, List.cons_append, List.dropWhile_cons_of_neg (by simp [hn1]),
        ← List.cons_append, ← hNe]
    rw [hdw, takeUntilSub_at_start]
    simp only [List.isEmpty_nil, if_true]
    have hdec : decodeNL D = D := by
      have h0 := decodeNL_ws_append D [] hallws
      rw [decodeNL_nil] at h0
      rw [List.append_nil] at h0
      exact h0
    rw [hdec, trimJs_of_all_ws D hallws]
  · have hdw : (D ++ (N ++ R)).dropWhile isJsWs = D.dropWhile isJsWs ++ (N ++ R) := by
      rw [List.dropWhile_append, if_neg (by simp [hD0])]
    rw [hdw, takeUntilSub_append_found N (D.dropWhile isJsWs) R hD,
      if_neg (by simp [hD0])]
    have htw : ∀ c ∈ D.takeWhile isJsWs, isJsWs c = true := fun c hc =>
      List.mem_takeWhile_imp hc
    have hsplit : D = D.takeWhile isJsWs ++ D.dropWhile isJsWs :=
      (List.takeWhile_append_dropWhile isJsWs D).symm
    have hrw : trimJs (decodeNL D) = trimJs (decodeNL (D.dropWhile isJsWs)) := by
      conv_lhs => rw [hsplit]
      rw [decodeNL_ws_append _ _ htw, trimJs_ws_append _ _ htw]
    rw [hrw]

/-- Last-section version of `sectionSpec_canonical`. -/
theorem sectionSpecEnd_canonical (M P D : List Char)
    (hP : noStart M P (M ++ D)) :
    sectionSpecEnd M (P ++ (M ++ D)) = trimJs (decodeNL D) := by
  have hfound := dropToSub_append_found M P D hP
  rw [sectionSpecEnd_eq_of_found M _ _ hfound]
  by_cases hD0 : D.dropWhile isJsWs = []
  · have hallws : ∀ c ∈ D, isJsWs c = true := List.dropWhile_eq_nil_iff.mp hD0
    rw [hD0]
    simp only [List.isEmpty_nil, if_true]
    have hdec : decodeNL D = D := by
      have h0 := decodeNL_ws_append D [] hallws
      rw [decodeNL_nil] at h0
      rw [List.append_nil] at h0
      exact h0
    rw [hdec, trimJs_of_all_ws D hallws]
  · rw [if_neg (by simp [hD0])]
    have htw : ∀ c ∈ D.takeWhile isJsWs, isJsWs c = true := fun c hc =>
      List.mem_takeWhile_imp hc
    have hsplit : D = D.takeWhile isJsWs ++ D.dropWhile isJsWs :=
      (List.takeWhile_append_dropWhile isJsWs D).symm
    have hrw : trimJs (decodeNL D) = trimJs (decodeNL (D.dropWhile isJsWs)) := by
      conv_lhs => rw [hsplit]
      rw [decodeNL_ws_append _ _ htw, trimJs_ws_append _ _ htw]
    rw [hrw]

end DiffDigest

namespace DiffDigest

/-- Contrapositive of `includesSub_dropWhile`. -/
theorem includesSub_dropWhile_false (N : List Char) (p : Char → Bool) (u : List Char)
    (h : includesSub N u = false) : includesSub N (u.dropWhile p) = false := by
  cases hh : includesSub N (u.dropWhile p) with
  | false => rfl
  | true => exact absurd (includesSub_dropWhile N p u hh) (by simp [h])

end DiffDigest

namespace DiffDigest

/-- Occurrences cannot start inside the empty prefix. -/
theorem noStart_nil (pat z : List Char) : noStart pat [] z := by
  intro y hy hne
  have hy0 : y = [] := by simpa [List.tails] using hy
  exact absurd hy0 hne

/-- C3 (amended): a buffer carrying every configured tag in canonical
order, with contents free of CR / U+2028 / U+2029 in which the bounding
markers do not occur (also after newline encoding), parses to exactly the
text between each marker and the next, trimmed — except that each interior
newline is returned with a space on each side (`decodeNL (encodeNL c)`),
the residue of the internal `" __NEWLINE__ "` placeholder round-trip
exhibited by `C3_counterexample`. -/
theorem C3_theorem (c1 c2 c3 c4 c5 c6 c7 c8 : List Char)
    (hc1 : cleanText c1) (hc2 : cleanText c2) (hc3 : cleanText c3) (hc4 : cleanText c4)
    (hc5 : cleanText c5) (hc6 : cleanText c6) (hc7 : cleanText c7) (hc8 : cleanText c8)
    (hD1 : includesSub "MARKETING:".toList (encodeNL c1) = false)
    (hD2 : includesSub "FEEDBACK:".toList (encodeNL c2) = false)
    (hD3 : includesSub "SECURITY:".toList (encodeNL c3) = false)
    (hD4 : includesSub "READABILITY:".toList (encodeNL c4) = false)
    (hD5 : includesSub "TESTS:".toList (encodeNL c5) = false)
    (hD6 : includesSub "CONTRIBUTORS:".toList (encodeNL c6) = false)
    (hD7 : includesSub "CHANGES:".toList (encodeNL c7) = false)
    (hP2 : includesSub "MARKETING:".toList
      ("DEVELOPER:".toList ++ (encodeNL c1)) = false)
    (hP3 : includesSub "FEEDBACK:".toList
      ("DEVELOPER:".toList ++ (encodeNL c1 ++ ("MARKETING:".toList ++ (encodeNL c2)))) = false)
    (hP4 : includesSub "SECURITY:".toList
      ("DEVELOPER:".toList ++ (encodeNL c1 ++ ("MARKETING:".toList ++ (encodeNL c2 ++ ("FEEDBACK:".toList ++ (encodeNL c3)))))) = false)
    (hP5 : includesSub "READABILITY:".toList
      ("DEVELOPER:".toList ++ (encodeNL c1 ++ ("MARKETING:".toList ++ (encodeNL c2 ++ ("FEEDBACK:".toList ++ (encodeNL c3 ++ ("SECURITY:".toList ++ (encodeNL c4)))))))) = false)
    (hP6 : includesSub "TESTS:".toList
      ("DEVELOPER:".toList ++ (encodeNL c1 ++ ("MARKETING:".toList ++ (encodeNL c2 ++ ("FEEDBACK:".toList ++ (encodeNL c3 ++ ("SECURITY:".toList ++ (encodeNL c4 ++ ("READABILITY:".toList ++ (encodeNL c5)))))))))) = false)
    (hP7 : includesSub "CONTRIBUTORS:".toList
      ("DEVELOPER:".toList ++ (encodeNL c1 ++ ("MARKETING:".toList ++ (encodeNL c2 ++ ("FEEDBACK:".toList ++ (encodeNL c3 ++ ("SECURITY:".toList ++ (encodeNL c4 ++ ("READABILITY:".toList ++ (encodeNL c5 ++ ("TESTS:".toList ++ (encodeNL c6)))))))))))) = false)
    (hP8 : includesSub "CHANGES:".toList
      ("DEVELOPER:".toList ++ (encodeNL c1 ++ ("MARKETING:".toList ++ (encodeNL c2 ++ ("FEEDBACK:".toList ++ (encodeNL c3 ++ ("SECURITY:".toList ++ (encodeNL c4 ++ ("READABILITY:".toList ++ (encodeNL c5 ++ ("TESTS:".toList ++ (encodeNL c6 ++ ("CONTRIBUTORS:".toList ++ (encodeNL c7)))))))))))))) = false) :
    parseNotes ("DEVELOPER:".toList ++ (c1 ++ ("MARKETING:".toList ++ (c2 ++ ("FEEDBACK:".toList ++ (c3 ++ ("SECURITY:".toList ++ (c4 ++ ("READABILITY:".toList ++ (c5 ++ ("TESTS:".toList ++ (c6 ++ ("CONTRIBUTORS:".toList ++ (c7 ++ ("CHANGES:".toList ++ (c8)))))))))))))))) =
      ⟨trimJs (decodeNL (encodeNL c1)), trimJs (decodeNL (encodeNL c2)), trimJs (decodeNL (encodeNL c3)), trimJs (decodeNL (encodeNL c4)), trimJs (decodeNL (encodeNL c5)), trimJs (decodeNL (encodeNL c6)), trimJs (decodeNL (encodeNL c7)), trimJs (decodeNL (encodeNL c8))⟩ := by
  have hct : cleanText ("DEVELOPER:".toList ++ (c1 ++ ("MARKETING:".toList ++ (c2 ++ ("FEEDBACK:".toList ++ (c3 ++ ("SECURITY:".toList ++ (c4 ++ ("READABILITY:".toList ++ (c5 ++ ("TESTS:".toList ++ (c6 ++ ("CONTRIBUTORS:".toList ++ (c7 ++ ("CHANGES:".toList ++ (c8)))))))))))))))) :=
    cleanText_append _ _ (by decide) (cleanText_append _ _ hc1 (cleanText_append _ _ (by decide) (cleanText_append _ _ hc2 (cleanText_append _ _ (by decide) (cleanText_append _ _ hc3 (cleanText_append _ _ (by decide) (cleanText_append _ _ hc4 (cleanText_append _ _ (by decide) (cleanText_append _ _ hc5 (cleanText_append _ _ (by decide) (cleanText_append _ _ hc6 (cleanText_append _ _ (by decide) (cleanText_append _ _ hc7 (cleanText_append _ _ (by decide) (hc8)))))))))))))))
  have hall := encodeNL_allDot _ hct
  have hM1 : encodeNL "DEVELOPER:".toList = "DEVELOPER:".toList := by decide
  have hM2 : encodeNL "MARKETING:".toList = "MARKETING:".toList := by decide
  have hM3 : encodeNL "FEEDBACK:".toList = "FEEDBACK:".toList := by decide
  have hM4 : encodeNL "SECURITY:".toList = "SECURITY:".toList := by decide
  have hM5 : encodeNL "READABILITY:".toList = "READABILITY:".toList := by decide
  have hM6 : encodeNL "TESTS:".toList = "TESTS:".toList := by decide
  have hM7 : encodeNL "CONTRIBUTORS:".toList = "CONTRIBUTORS:".toList := by decide
  have hM8 : encodeNL "CHANGES:".toList = "CHANGES:".toList := by decide
  have hs0 : encodeNL ("DEVELOPER:".toList ++ (c1 ++ ("MARKETING:".toList ++ (c2 ++ ("FEEDBACK:".toList ++ (c3 ++ ("SECURITY:".toList ++ (c4 ++ ("READABILITY:".toList ++ (c5 ++ ("TESTS:".toList ++ (c6 ++ ("CONTRIBUTORS:".toList ++ (c7 ++ ("CHANGES:".toList ++ (c8)))))))))))))))) =
      "DEVELOPER:".toList ++ (encodeNL c1 ++ ("MARKETING:".toList ++ (encodeNL c2 ++ ("FEEDBACK:".toList ++ (encodeNL c3 ++ ("SECURITY:".toList ++ (encodeNL c4 ++ ("READABILITY:".toList ++ (encodeNL c5 ++ ("TESTS:".toList ++ (encodeNL c6 ++ ("CONTRIBUTORS:".toList ++ (encodeNL c7 ++ ("CHANGES:".toList ++ (encodeNL c8))))))))))))))) := by
    simp only [encodeNL_append, hM1, hM2, hM3, hM4, hM5, hM6, hM7, hM8]
  have hb2 : ∀ j, j < ("MARKETING:".toList).length → 0 < j →
      (("MARKETING:".toList).drop j).isPrefixOf "MARKETING:".toList = false := by decide
  have hb3 : ∀ j, j < ("FEEDBACK:".toList).length → 0 < j →
      (("FEEDBACK:".toList).drop j).isPrefixOf "FEEDBACK:".toList = false := by decide
  have hb4 : ∀ j, j < ("SECURITY:".toList).length → 0 < j →
      (("SECURITY:".toList).drop j).isPrefixOf "SECURITY:".toList = false := by decide
  have hb5 : ∀ j, j < ("READABILITY:".toList).length → 0 < j →
      (("READABILITY:".toList).drop j).isPrefixOf "READABILITY:".toList = false := by decide
  have hb6 : ∀ j, j < ("TESTS:".toList).length → 0 < j →
      (("TESTS:".toList).drop j).isPrefixOf "TESTS:".toList = false := by decide
  have hb7 : ∀ j, j < ("CONTRIBUTORS:".toList).length → 0 < j →
      (("CONTRIBUTORS:".toList).drop j).isPrefixOf "CONTRIBUTORS:".toList = false := by decide
  have hb8 : ∀ j, j < ("CHANGES:".toList).length → 0 < j →
      (("CHANGES:".toList).drop j).isPrefixOf "CHANGES:".toList = false := by decide
  have hs2 : encodeNL ("DEVELOPER:".toList ++ (c1 ++ ("MARKETING:".toList ++ (c2 ++ ("FEEDBACK:".toList ++ (c3 ++ ("SECURITY:".toList ++ (c4 ++ ("READABILITY:".toList ++ (c5 ++ ("TESTS:".toList ++ (c6 ++ ("CONTRIBUTORS:".toList ++ (c7 ++ ("CHANGES:".toList ++ (c8)))))))))))))))) =
      ("DEVELOPER:".toList ++ (encodeNL c1)) ++
      ("MARKETING:".toList ++ (encodeNL c2 ++ ("FEEDBACK:".toList ++ (encodeNL c3 ++ ("SECURITY:".toList ++ (encodeNL c4 ++ ("READABILITY:".toList ++ (encodeNL c5 ++ ("TESTS:".toList ++ (encodeNL c6 ++ ("CONTRIBUTORS:".toList ++ (encodeNL c7 ++ ("CHANGES:".toList ++ (encodeNL c8)))))))))))))) := by
    rw [hs0]
    simp only [List.append_assoc]
  have hs3 : encodeNL ("DEVELOPER:".toList ++ (c1 ++ ("MARKETING:".toList ++ (c2 ++ ("FEEDBACK:".toList ++ (c3 ++ ("SECURITY:".toList ++ (c4 ++ ("READABILITY:".toList ++ (c5 ++ ("TESTS:".toList ++ (c6 ++ ("CONTRIBUTORS:".toList ++ (c7 ++ ("CHANGES:".toList ++ (c8)))))))))))))))) =
      ("DEVELOPER:".toList ++ (encodeNL c1 ++ ("MARKETING:".toList ++ (encodeNL c2)))) ++
      ("FEEDBACK:".toList ++ (encodeNL c3 ++ ("SECURITY:".toList ++ (encodeNL c4 ++ ("READABILITY:".toList ++ (encodeNL c5 ++ ("TESTS:".toList ++ (encodeNL c6 ++ ("CONTRIBUTORS:".toList ++ (encodeNL c7 ++ ("CHANGES:".toList ++ (encodeNL c8)))))))))))) := by
    rw [hs0]
    simp only [List.append_assoc]
  have hs4 : encodeNL ("DEVELOPER:".toList ++ (c1 ++ ("MARKETING:".toList ++ (c2 ++ ("FEEDBACK:".toList ++ (c3 ++ ("SECURITY:".toList ++ (c4 ++ ("READABILITY:".toList ++ (c5 ++ ("TESTS:".toList ++ (c6 ++ ("CONTRIBUTORS:".toList ++ (c7 ++ ("CHANGES:".toList ++ (c8)))))))))))))))) =
      ("DEVELOPER:".toList ++ (encodeNL c1 ++ ("MARKETING:".toList ++ (encodeNL c2 ++ ("FEEDBACK:".toList ++ (encodeNL c3)))))) ++
      ("SECURITY:".toList ++ (encodeNL c4 ++ ("READABILITY:".toList ++ (encodeNL c5 ++ ("TESTS:".toList ++ (encodeNL c6 ++ ("CONTRIBUTORS:".toList ++ (encodeNL c7 ++ ("CHANGES:".toList ++ (encodeNL c8)))))))))) := by
    rw [hs0]
    simp only [List.append_assoc]
  have hs5 : encodeNL ("DEVELOPER:".toList ++ (c1 ++ ("MARKETING:".toList ++ (c2 ++ ("FEEDBACK:".toList ++ (c3 ++ ("SECURITY:".toList ++ (c4 ++ ("READABILITY:".toList ++ (c5 ++ ("TESTS:".toList ++ (c6 ++ ("CONTRIBUTORS:".toList ++ (c7 ++ ("CHANGES:".toList ++ (c8)))))))))))))))) =
      ("DEVELOPER:".toList ++ (encodeNL c1 ++ ("MARKETING:".toList ++ (encodeNL c2 ++ ("FEEDBACK:".toList ++ (encodeNL c3 ++ ("SECURITY:".toList ++ (encodeNL c4)))))))) ++
      ("READABILITY:".toList ++ (encodeNL c5 ++ ("TESTS:".toList ++ (encodeNL c6 ++ ("CONTRIBUTORS:".toList ++ (encodeNL c7 ++ ("CHANGES:".toList ++ (encodeNL c8)))))))) := by
    rw [hs0]
    simp only [List.append_assoc]
  have hs6 : encodeNL ("DEVELOPER:".toList ++ (c1 ++ ("MARKETING:".toList ++ (c2 ++ ("FEEDBACK:".toList ++ (c3 ++ ("SECURITY:".toList ++ (c4 ++ ("READABILITY:".toList ++ (c5 ++ ("TESTS:".toList ++ (c6 ++ ("CONTRIBUTORS:".toList ++ (c7 ++ ("CHANGES:".toList ++ (c8)))))))))))))))) =
      ("DEVELOPER:".toList ++ (encodeNL c1 ++ ("MARKETING:".toList ++ (encodeNL c2 ++ ("FEEDBACK:".toList ++ (encodeNL c3 ++ ("SECURITY:".toList ++ (encodeNL c4 ++ ("READABILITY:".toList ++ (encodeNL c5)))))))))) ++
      ("TESTS:".toList ++ (encodeNL c6 ++ ("CONTRIBUTORS:".toList ++ (encodeNL c7 ++ ("CHANGES:".toList ++ (encodeNL c8)))))) := by
    rw [hs0]
    simp only [List.append_assoc]
  have hs7 : encodeNL ("DEVELOPER:".toList ++ (c1 ++ ("MARKETING:".toList ++ (c2 ++ ("FEEDBACK:".toList ++ (c3 ++ ("SECURITY:".toList ++ (c4 ++ ("READABILITY:".toList ++ (c5 ++ ("TESTS:".toList ++ (c6 ++ ("CONTRIBUTORS:".toList ++ (c7 ++ ("CHANGES:".toList ++ (c8)))))))))))))))) =
      ("DEVELOPER:".toList ++ (encodeNL c1 ++ ("MARKETING:".toList ++ (encodeNL c2 ++ ("FEEDBACK:".toList ++ (encodeNL c3 ++ ("SECURITY:".toList ++ (encodeNL c4 ++ ("READABILITY:".toList ++ (encodeNL c5 ++ ("TESTS:".toList ++ (encodeNL c6)))))))))))) ++
      ("CONTRIBUTORS:".toList ++ (encodeNL c7 ++ ("CHANGES:".toList ++ (encodeNL c8)))) := by
    rw [hs0]
    simp only [List.append_assoc]
  have hs8 : encodeNL ("DEVELOPER:".toList ++ (c1 ++ ("MARKETING:".toList ++ (c2 ++ ("FEEDBACK:".toList ++ (c3 ++ ("SECURITY:".toList ++ (c4 ++ ("READABILITY:".toList ++ (c5 ++ ("TESTS:".toList ++ (c6 ++ ("CONTRIBUTORS:".toList ++ (c7 ++ ("CHANGES:".toList ++ (c8)))))))))))))))) =
      ("DEVELOPER:".toList ++ (encodeNL c1 ++ ("MARKETING:".toList ++ (encodeNL c2 ++ ("FEEDBACK:".toList ++ (encodeNL c3 ++ ("SECURITY:".toList ++ (encodeNL c4 ++ ("READABILITY:".toList ++ (encodeNL c5 ++ ("TESTS:".toList ++ (encodeNL c6 ++ ("CONTRIBUTORS:".toList ++ (encodeNL c7)))))))))))))) ++
      ("CHANGES:".toList ++ (encodeNL c8)) := by
    rw [hs0]
    simp only [List.append_assoc]
  have f1 : (parseNotes ("DEVELOPER:".toList ++ (c1 ++ ("MARKETING:".toList ++ (c2 ++ ("FEEDBACK:".toList ++ (c3 ++ ("SECURITY:".toList ++ (c4 ++ ("READABILITY:".toList ++ (c5 ++ ("TESTS:".toList ++ (c6 ++ ("CONTRIBUTORS:".toList ++ (c7 ++ ("CHANGES:".toList ++ (c8))))))))))))))))).devNote =
      trimJs (decodeNL (encodeNL c1)) := by
    show extractSection "DEVELOPER:".toList "MARKETING:".toList
      (encodeNL ("DEVELOPER:".toList ++ (c1 ++ ("MARKETING:".toList ++ (c2 ++ ("FEEDBACK:".toList ++ (c3 ++ ("SECURITY:".toList ++ (c4 ++ ("READABILITY:".toList ++ (c5 ++ ("TESTS:".toList ++ (c6 ++ ("CONTRIBUTORS:".toList ++ (c7 ++ ("CHANGES:".toList ++ (c8))))))))))))))))) = _
    rw [extractSection_of_allDot _ _ _ hall, hs0]
    exact sectionSpec_canonical _ _ _ _ _
      (noStart_nil _ _)
      (noStart_of_no_occurrence _ _ _ hb2 (includesSub_dropWhile_false _ _ _ hD1))
      ⟨'M', "ARKETING:".toList, by decide, by decide⟩
  have f2 : (parseNotes ("DEVELOPER:".toList ++ (c1 ++ ("MARKETING:".toList ++ (c2 ++ ("FEEDBACK:".toList ++ (c3 ++ ("SECURITY:".toList ++ (c4 ++ ("READABILITY:".toList ++ (c5 ++ ("TESTS:".toList ++ (c6 ++ ("CONTRIBUTORS:".toList ++ (c7 ++ ("CHANGES:".toList ++ (c8))))))))))))))))).marketingNote =
      trimJs (decodeNL (encodeNL c2)) := by
    show extractSection "MARKETING:".toList "FEEDBACK:".toList
      (encodeNL ("DEVELOPER:".toList ++ (c1 ++ ("MARKETING:".toList ++ (c2 ++ ("FEEDBACK:".toList ++ (c3 ++ ("SECURITY:".toList ++ (c4 ++ ("READABILITY:".toList ++ (c5 ++ ("TESTS:".toList ++ (c6 ++ ("CONTRIBUTORS:".toList ++ (c7 ++ ("CHANGES:".toList ++ (c8))))))))))))))))) = _
    rw [extractSection_of_allDot _ _ _ hall, hs2]
    exact sectionSpec_canonical _ _ _ _ _
      (noStart_of_no_occurrence _ _ _ hb2 hP2)
      (noStart_of_no_occurrence _ _ _ hb3 (includesSub_dropWhile_false _ _ _ hD2))
      ⟨'F', "EEDBACK:".toList, by decide, by decide⟩
  have f3 : (parseNotes ("DEVELOPER:".toList ++ (c1 ++ ("MARKETING:".toList ++ (c2 ++ ("FEEDBACK:".toList ++ (c3 ++ ("SECURITY:".toList ++ (c4 ++ ("READABILITY:".toList ++ (c5 ++ ("TESTS:".toList ++ (c6 ++ ("CONTRIBUTORS:".toList ++ (c7 ++ ("CHANGES:".toList ++ (c8))))))))))))))))).feedback =
      trimJs (decodeNL (encodeNL c3)) := by
    show extractSection "FEEDBACK:".toList "SECURITY:".toList
      (encodeNL ("DEVELOPER:".toList ++ (c1 ++ ("MARKETING:".toList ++ (c2 ++ ("FEEDBACK:".toList ++ (c3 ++ ("SECURITY:".toList ++ (c4 ++ ("READABILITY:".toList ++ (c5 ++ ("TESTS:".toList ++ (c6 ++ ("CONTRIBUTORS:".toList ++ (c7 ++ ("CHANGES:".toList ++ (c8))))))))))))))))) = _
    rw [extractSection_of_allDot _ _ _ hall, hs3]
    exact sectionSpec_canonical _ _ _ _ _
      (noStart_of_no_occurrence _ _ _ hb3 hP3)
      (noStart_of_no_occurrence _ _ _ hb4 (includesSub_dropWhile_false _ _ _ hD3))
      ⟨'S', "ECURITY:".toList, by decide, by decide⟩
  have f4 : (parseNotes ("DEVELOPER:".toList ++ (c1 ++ ("MARKETING:".toList ++ (c2 ++ ("FEEDBACK:".toList ++ (c3 ++ ("SECURITY:".toList ++ (c4 ++ ("READABILITY:".toList ++ (c5 ++ ("TESTS:".toList ++ (c6 ++ ("CONTRIBUTORS:".toList ++ (c7 ++ ("CHANGES:".toList ++ (c8))))))))))))))))).security =
      trimJs (decodeNL (encodeNL c4)) := by
    show extractSection "SECURITY:".toList "READABILITY:".toList
      (encodeNL ("DEVELOPER:".toList ++ (c1 ++ ("MARKETING:".toList ++ (c2 ++ ("FEEDBACK:".toList ++ (c3 ++ ("SECURITY:".toList ++ (c4 ++ ("READABILITY:".toList ++ (c5 ++ ("TESTS:".toList ++ (c6 ++ ("CONTRIBUTORS:".toList ++ (c7 ++ ("CHANGES:".toList ++ (c8))))))))))))))))) = _
    rw [extractSection_of_allDot _ _ _ hall, hs4]
    exact sectionSpec_canonical _ _ _ _ _
      (noStart_of_no_occurrence _ _ _ hb4 hP4)
      (noStart_of_no_occurrence _ _ _ hb5 (includesSub_dropWhile_false _ _ _ hD4))
      ⟨'R', "EADABILITY:".toList, by decide, by decide⟩
  have f5 : (parseNotes ("DEVELOPER:".toList ++ (c1 ++ ("MARKETING:".toList ++ (c2 ++ ("FEEDBACK:".toList ++ (c3 ++ ("SECURITY:".toList ++ (c4 ++ ("READABILITY:".toList ++ (c5 ++ ("TESTS:".toList ++ (c6 ++ ("CONTRIBUTORS:".toList ++ (c7 ++ ("CHANGES:".toList ++ (c8))))))))))))))))).readability =
      trimJs (decodeNL (encodeNL c5)) := by
    show extractSection "READABILITY:".toList "TESTS:".toList
      (encodeNL ("DEVELOPER:".toList ++ (c1 ++ ("MARKETING:".toList ++ (c2 ++ ("FEEDBACK:".toList ++ (c3 ++ ("SECURITY:".toList ++ (c4 ++ ("READABILITY:".toList ++ (c5 ++ ("TESTS:".toList ++ (c6 ++ ("CONTRIBUTORS:".toList ++ (c7 ++ ("CHANGES:".toList ++ (c8))))))))))))))))) = _
    rw [extractSection_of_allDot _ _ _ hall, hs5]
    exact sectionSpec_canonical _ _ _ _ _
      (noStart_of_no_occurrence _ _ _ hb5 hP5)
      (noStart_of_no_occurrence _ _ _ hb6 (includesSub_dropWhile_false _ _ _ hD5))
      ⟨'T', "ESTS:".toList, by decide, by decide⟩
  have f6 : (parseNotes ("DEVELOPER:".toList ++ (c1 ++ ("MARKETING:".toList ++ (c2 ++ ("FEEDBACK:".toList ++ (c3 ++ ("SECURITY:".toList ++ (c4 ++ ("READABILITY:".toList ++ (c5 ++ ("TESTS:".toList ++ (c6 ++ ("CONTRIBUTORS:".toList ++ (c7 ++ ("CHANGES:".toList ++ (c8))))))))))))))))).tests =
      trimJs (decodeNL (encodeNL c6)) := by
    show extractSection "TESTS:".toList "CONTRIBUTORS:".toList
      (encodeNL ("DEVELOPER:".toList ++ (c1 ++ ("MARKETING:".toList ++ (c2 ++ ("FEEDBACK:".toList ++ (c3 ++ ("SECURITY:".toList ++ (c4 ++ ("READABILITY:".toList ++ (c5 ++ ("TESTS:".toList ++ (c6 ++ ("CONTRIBUTORS:".toList ++ (c7 ++ ("CHANGES:".toList ++ (c8))))))))))))))))) = _
    rw [extractSection_of_allDot _ _ _ hall, hs6]
    exact sectionSpec_canonical _ _ _ _ _
      (noStart_of_no_occurrence _ _ _ hb6 hP6)
      (noStart_of_no_occurrence _ _ _ hb7 (includesSub_dropWhile_false _ _ _ hD6))
      ⟨'C', "ONTRIBUTORS:".toList, by decide, by decide⟩
  have f7 : (parseNotes ("DEVELOPER:".toList ++ (c1 ++ ("MARKETING:".toList ++ (c2 ++ ("FEEDBACK:".toList ++ (c3 ++ ("SECURITY:".toList ++ (c4 ++ ("READABILITY:".toList ++ (c5 ++ ("TESTS:".toList ++ (c6 ++ ("CONTRIBUTORS:".toList ++ (c7 ++ ("CHANGES:".toList ++ (c8))))))))))))))))).contributors =
      trimJs (decodeNL (encodeNL c7)) := by
    show extractSection "CONTRIBUTORS:".toList "CHANGES:".toList
      (encodeNL ("DEVELOPER:".toList ++ (c1 ++ ("MARKETING:".toList ++ (c2 ++ ("FEEDBACK:".toList ++ (c3 ++ ("SECURITY:".toList ++ (c4 ++ ("READABILITY:".toList ++ (c5 ++ ("TESTS:".toList ++ (c6 ++ ("CONTRIBUTORS:".toList ++ (c7 ++ ("CHANGES:".toList ++ (c8))))))))))))))))) = _
    rw [extractSection_of_allDot _ _ _ hall, hs7]
    exact sectionSpec_canonical _ _ _ _ _
      (noStart_of_no_occurrence _ _ _ hb7 hP7)
      (noStart_of_no_occurrence _ _ _ hb8 (includesSub_dropWhile_false _ _ _ hD7))
      ⟨'C', "HANGES:".toList, by decide, by decide⟩
  have f8 : (parseNotes ("DEVELOPER:".toList ++ (c1 ++ ("MARKETING:".toList ++ (c2 ++ ("FEEDBACK:".toList ++ (c3 ++ ("SECURITY:".toList ++ (c4 ++ ("READABILITY:".toList ++ (c5 ++ ("TESTS:".toList ++ (c6 ++ ("CONTRIBUTORS:".toList ++ (c7 ++ ("CHANGES:".toList ++ (c8))))))))))))))))).changes =
      trimJs (decodeNL (encodeNL c8)) := by
    show extractLast "CHANGES:".toList
      (encodeNL ("DEVELOPER:".toList ++ (c1 ++ ("MARKETING:".toList ++ (c2 ++ ("FEEDBACK:".toList ++ (c3 ++ ("SECURITY:".toList ++ (c4 ++ ("READABILITY:".toList ++ (c5 ++ ("TESTS:".toList ++ (c6 ++ ("CONTRIBUTORS:".toList ++ (c7 ++ ("CHANGES:".toList ++ (c8))))))))))))))))) = _
    rw [extractLast_of_allDot _ _ hall, hs8]
    exact sectionSpecEnd_canonical _ _ _ (noStart_of_no_occurrence _ _ _ hb8 hP8)
  have heta : parseNotes ("DEVELOPER:".toList ++ (c1 ++ ("MARKETING:".toList ++ (c2 ++ ("FEEDBACK:".toList ++ (c3 ++ ("SECURITY:".toList ++ (c4 ++ ("READABILITY:".toList ++ (c5 ++ ("TESTS:".toList ++ (c6 ++ ("CONTRIBUTORS:".toList ++ (c7 ++ ("CHANGES:".toList ++ (c8)))))))))))))))) =
      ⟨(parseNotes ("DEVELOPER:".toList ++ (c1 ++ ("MARKETING:".toList ++ (c2 ++ ("FEEDBACK:".toList ++ (c3 ++ ("SECURITY:".toList ++ (c4 ++ ("READABILITY:".toList ++ (c5 ++ ("TESTS:".toList ++ (c6 ++ ("CONTRIBUTORS:".toList ++ (c7 ++ ("CHANGES:".toList ++ (c8))))))))))))))))).devNote, (parseNotes ("DEVELOPER:".toList ++ (c1 ++ ("MARKETING:".toList ++ (c2 ++ ("FEEDBACK:".toList ++ (c3 ++ ("SECURITY:".toList ++ (c4 ++ ("READABILITY:".toList ++ (c5 ++ ("TESTS:".toList ++ (c6 ++ ("CONTRIBUTORS:".toList ++ (c7 ++ ("CHANGES:".toList ++ (c8))))))))))))))))).marketingNote, (parseNotes ("DEVELOPER:".toList ++ (c1 ++ ("MARKETING:".toList ++ (c2 ++ ("FEEDBACK:".toList ++ (c3 ++ ("SECURITY:".toList ++ (c4 ++ ("READABILITY:".toList ++ (c5 ++ ("TESTS:".toList ++ (c6 ++ ("CONTRIBUTORS:".toList ++ (c7 ++ ("CHANGES:".toList ++ (c8))))))))))))))))).feedback, (parseNotes ("DEVELOPER:".toList ++ (c1 ++ ("MARKETING:".toList ++ (c2 ++ ("FEEDBACK:".toList ++ (c3 ++ ("SECURITY:".toList ++ (c4 ++ ("READABILITY:".toList ++ (c5 ++ ("TESTS:".toList ++ (c6 ++ ("CONTRIBUTORS:".toList ++ (c7 ++ ("CHANGES:".toList ++ (c8))))))))))))))))).security, (parseNotes ("DEVELOPER:".toList ++ (c1 ++ ("MARKETING:".toList ++ (c2 ++ ("FEEDBACK:".toList ++ (c3 ++ ("SECURITY:".toList ++ (c4 ++ ("READABILITY:".toList ++ (c5 ++ ("TESTS:".toList ++ (c6 ++ ("CONTRIBUTORS:".toList ++ (c7 ++ ("CHANGES:".toList ++ (c8))))))))))))))))).readability, (parseNotes ("DEVELOPER:".toList ++ (c1 ++ ("MARKETING:".toList ++ (c2 ++ ("FEEDBACK:".toList ++ (c3 ++ ("SECURITY:".toList ++ (c4 ++ ("READABILITY:".toList ++ (c5 ++ ("TESTS:".toList ++ (c6 ++ ("CONTRIBUTORS:".toList ++ (c7 ++ ("CHANGES:".toList ++ (c8))))))))))))))))).tests, (parseNotes ("DEVELOPER:".toList ++ (c1 ++ ("MARKETING:".toList ++ (c2 ++ ("FEEDBACK:".toList ++ (c3 ++ ("SECURITY:".toList ++ (c4 ++ ("READABILITY:".toList ++ (c5 ++ ("TESTS:".toList ++ (c6 ++ ("CONTRIBUTORS:".toList ++ (c7 ++ ("CHANGES:".toList ++ (c8))))))))))))))))).contributors, (parseNotes ("DEVELOPER:".toList ++ (c1 ++ ("MARKETING:".toList ++ (c2 ++ ("FEEDBACK:".toList ++ (c3 ++ ("SECURITY:".toList ++ (c4 ++ ("READABILITY:".toList ++ (c5 ++ ("TESTS:".toList ++ (c6 ++ ("CONTRIBUTORS:".toList ++ (c7 ++ ("CHANGES:".toList ++ (c8))))))))))))))))).changes⟩ := rfl
  rw [heta, f1, f2, f3, f4, f5, f6, f7, f8]

end DiffDigest

namespace DiffDigest

/-- Witness for `C3_theorem` at a concrete fully tagged buffer whose
DEVELOPER content embeds a newline. -/
theorem C3_witness :
    parseNotes ("DEVELOPER:".toList ++ (" Fixed a null check\nacross lines ".toList ++ ("MARKETING:".toList ++ (" More reliable sign-in ".toList ++ ("FEEDBACK:".toList ++ (" Looks good ".toList ++ ("SECURITY:".toList ++ (" No new risks ".toList ++ ("READABILITY:".toList ++ (" Clear naming ".toList ++ ("TESTS:".toList ++ (" Unit coverage added ".toList ++ ("CONTRIBUTORS:".toList ++ (" alice and bob ".toList ++ ("CHANGES:".toList ++ (" auth module ".toList)))))))))))))))) =
      ⟨trimJs (decodeNL (encodeNL " Fixed a null check\nacross lines ".toList)), trimJs (decodeNL (encodeNL " More reliable sign-in ".toList)), trimJs (decodeNL (encodeNL " Looks good ".toList)), trimJs (decodeNL (encodeNL " No new risks ".toList)), trimJs (decodeNL (encodeNL " Clear naming ".toList)), trimJs (decodeNL (encodeNL " Unit coverage added ".toList)), trimJs (decodeNL (encodeNL " alice and bob ".toList)), trimJs (decodeNL (encodeNL " auth module ".toList))⟩ :=
  C3_theorem " Fixed a null check\nacross lines ".toList " More reliable sign-in ".toList " Looks good ".toList " No new risks ".toList " Clear naming ".toList " Unit coverage added ".toList " alice and bob ".toList " auth module ".toList (by decide) (by decide) (by decide) (by decide) (by decide) (by decide) (by decide) (by decide) (by decide) (by decide) (by decide) (by decide) (by decide) (by decide) (by decide) (by decide) (by decide) (by decide) (by decide) (by decide) (by decide) (by decide)

end DiffDigest
